import Mathlib

/-!
# Verification of the flight-fare pipeline core

A shallow embedding of the validation, transformation and KPI modules of a
batch flight-fare pipeline (`src/validation.py`, `src/transformation.py`,
`src/kpi_calculator.py`).  Datasets are modelled column-oriented, as pandas
stores them: a list of named columns, each a list of cells.  A cell is a
`Value`: a rational number (pandas floats are modelled exactly, as rationals),
a string, a boolean, a date (month/day; no step of the pipeline reads the
year), or a missing value (`NaN`/`None`/`NaT` are collapsed into one missing
value, as `pd.isna` treats them).

Rational arithmetic is performed through `mkRat`-based wrappers (`qadd`,
`qsub`, `qmul`, `qdiv`, `qabs`): these are proved equal to the Mathlib
operations and, unlike them, evaluate inside `decide`.

Modelling notes, applied consistently below:
* `pd.to_numeric(·, errors="coerce")` on a string is modelled by `parseRat`,
  which accepts optionally signed decimal literals (the formats exercised by
  this pipeline); all other strings coerce to missing, as in pandas.
* `pd.to_datetime` on a string is modelled by `parseDate`, accepting
  ISO `YYYY-MM-DD`; other strings raise, as unparseable strings do in pandas.
* Python string operations `strip`/`title`/`lower` are modelled over ASCII.
* Row labels are positions `0..n-1` (the default `RangeIndex` produced by
  ingestion).
-/

namespace FlightPipeline

/-! ## Rational helpers -/

/-- Addition on `Rat` by cross multiplication (equals `(· + ·)`, see `qadd_eq`). -/
def qadd (a b : Rat) : Rat := mkRat (a.num * b.den + b.num * a.den) (a.den * b.den)

/-- Subtraction on `Rat` by cross multiplication (equals `(· - ·)`, see `qsub_eq`). -/
def qsub (a b : Rat) : Rat := mkRat (a.num * b.den - b.num * a.den) (a.den * b.den)

/-- Multiplication on `Rat` (equals `(· * ·)`, see `qmul_eq`). -/
def qmul (a b : Rat) : Rat := mkRat (a.num * b.num) (a.den * b.den)

/-- Inverse on `Rat` (`0⁻¹ = 0`; equals `Inv.inv`, see `qinv_eq`). -/
def qinv (a : Rat) : Rat :=
  if 0 ≤ a.num then mkRat (a.den : Int) a.num.toNat else -(mkRat (a.den : Int) (-a.num).toNat)

/-- Division on `Rat` (equals `(· / ·)`, see `qdiv_eq`). -/
def qdiv (a b : Rat) : Rat := qmul a (qinv b)

/-- Absolute value on `Rat` (equals `|·|`, see `qabs_eq`). -/
def qabs (a : Rat) : Rat := if a.num < 0 then -a else a

/-- Round-half-to-even to an integer, as `numpy.round` does. -/
def roundHalfEven (x : Rat) : Int :=
  let n : Int := Int.fdiv x.num (x.den : Int)
  let frac : Rat := qsub x (mkRat n 1)
  if frac < mkRat 1 2 then n
  else if mkRat 1 2 < frac then n + 1
  else if n % 2 = 0 then n else n + 1

/-- `Series.round(2)`: round to 2 decimal places, half to even (numpy semantics). -/
def round2 (x : Rat) : Rat := mkRat (roundHalfEven (qmul x (mkRat 100 1))) 100

/-! ## Characters and strings

Python's `str.strip`, `str.title`, `str.lower` are modelled over ASCII: the
pipeline's string columns hold airline and city names.  Case mapping is done
on character codes.
-/

/-- ASCII lower-case of a character code. -/
def lowCode (n : Nat) : Nat := if 65 ≤ n ∧ n ≤ 90 then n + 32 else n

/-- ASCII upper-case of a character code. -/
def upCode (n : Nat) : Nat := if 97 ≤ n ∧ n ≤ 122 then n - 32 else n

/-- ASCII letter test on a character code. -/
def isAlphaCode (n : Nat) : Bool := (65 ≤ n && n ≤ 90) || (97 ≤ n && n ≤ 122)

/-- Whitespace test on a character code (space, tab, LF, CR). -/
def isWsCode (n : Nat) : Bool := n == 32 || n == 9 || n == 10 || n == 13

def lowChar (c : Char) : Char := Char.ofNat (lowCode c.toNat)

def upChar (c : Char) : Char := Char.ofNat (upCode c.toNat)

def isWsChar (c : Char) : Bool := isWsCode c.toNat

def isDigitChar (c : Char) : Bool := 48 ≤ c.toNat && c.toNat ≤ 57

/-- `str.strip` on the character list: drop leading and trailing whitespace. -/
def stripList (l : List Char) : List Char :=
  ((l.dropWhile isWsChar).reverse.dropWhile isWsChar).reverse

/-- Case-map one character of `str.title`: `prev` records whether the previous
character was a letter; a letter after a non-letter is upper-cased, after a
letter it is lower-cased; other characters pass through. -/
def caseChar (prev : Bool) (c : Char) : Char :=
  if isAlphaCode c.toNat then (if prev then lowChar c else upChar c) else c

/-- The recursion of `str.title` over the character list. -/
def titleAux : Bool → List Char → List Char
  | _, [] => []
  | prev, c :: cs => caseChar prev c :: titleAux (isAlphaCode c.toNat) cs

/-- Python `str.strip`. -/
def pyStrip (s : String) : String := String.mk (stripList s.data)

/-- Python `str.title` (ASCII model). -/
def pyTitle (s : String) : String := String.mk (titleAux false s.data)

/-- Python `str.lower` (ASCII model). -/
def pyLower (s : String) : String := String.mk (s.data.map lowChar)

/-! ## Cell values -/

/-- One cell of a pandas column.  `null` stands for any missing value
(`NaN`, `None`, `NaT`); `dateV` is a `datetime.date` (month and day — the
pipeline never reads the year). -/
inductive Value where
  | num (q : Rat)
  | str (s : String)
  | boolV (b : Bool)
  | dateV (month day : Nat)
  | null
deriving DecidableEq, Repr

/-- `pd.isna` on one cell. -/
def isna : Value → Bool
  | .null => true
  | _ => false

/-- Numeric value of a digit list (most significant first). -/
def digitsVal (l : List Char) : Nat := l.foldl (fun a c => a * 10 + (c.toNat - 48)) 0

/-- Parse an unsigned decimal literal (`"12"`, `"12.5"`, `".5"`, `"12."`). -/
def parseUnsignedRat (l : List Char) : Option Rat :=
  let ip := l.takeWhile isDigitChar
  let rest := l.dropWhile isDigitChar
  match rest with
  | [] => if ip.isEmpty then none else some (mkRat (digitsVal ip) 1)
  | c :: frac =>
    if c = '.' then
      if frac.all isDigitChar ∧ (ip ≠ [] ∨ frac ≠ []) then
        some (mkRat (digitsVal (ip ++ frac)) (10 ^ frac.length))
      else none
    else none

/-- `pd.to_numeric(·, errors="coerce")` applied to a string: parse an
optionally signed decimal literal after stripping whitespace, `none` (missing)
when the string is not numeric. -/
def parseRat (s : String) : Option Rat :=
  match stripList s.data with
  | [] => none
  | c :: rest =>
    if c = '-' then (parseUnsignedRat rest).map (fun q => -q)
    else if c = '+' then parseUnsignedRat rest
    else parseUnsignedRat (c :: rest)

/-- `pd.to_datetime` applied to a string, modelled for ISO `YYYY-MM-DD`
input: returns the (month, day) pair, or `none` when the string does not
parse (in pandas: raises, which callers catch). -/
def parseDate (s : String) : Option (Nat × Nat) :=
  match s.data with
  | [y1, y2, y3, y4, h1, m1, m2, h2, d1, d2] =>
    if ([y1, y2, y3, y4, m1, m2, d1, d2].all isDigitChar ∧ h1 = '-' ∧ h2 = '-') then
      let m := digitsVal [m1, m2]
      let d := digitsVal [d1, d2]
      if 1 ≤ m ∧ m ≤ 12 ∧ 1 ≤ d ∧ d ≤ 31 then some (m, d) else none
    else none
  | _ => none

/-- Rendering of a rational for `astype(str)` (a stand-in for Python float
`repr`; the pipeline only ever feeds these renderings to `strip`/`title`,
which act on them trivially). -/
def ratRepr (q : Rat) : String :=
  if q.den = 1 then toString q.num else toString q.num ++ "/" ++ toString q.den

/-- Python `str(x)` as applied by `Series.astype(str)` to one cell.
`str(float("nan")) = "nan"`. -/
def astypeStr : Value → String
  | .num q => ratRepr q
  | .str s => s
  | .boolV b => if b then "True" else "False"
  | .dateV m d => "0000-" ++ toString m ++ "-" ++ toString d
  | .null => "nan"

/-- `pd.to_numeric(·, errors="coerce")` on one cell. -/
def toNumeric : Value → Option Rat
  | .num q => some q
  | .str s => parseRat s
  | .boolV b => some (if b then 1 else 0)
  | .dateV _ _ => none
  | .null => none

/-- Write an optional numeric result back into a cell (`none` is `NaN`). -/
def optToVal : Option Rat → Value
  | some q => .num q
  | none => .null

/-! ## Datasets

A pandas DataFrame: named columns in order, each a list of cells.  Row labels
are positions (default `RangeIndex`).
-/

structure Dataset where
  cols : List (String × List Value)
deriving DecidableEq, Repr

namespace Dataset

/-- `len(df)`: number of rows (all columns have equal length in a well-formed
frame; pandas keeps this invariant). -/
def nRows (ds : Dataset) : Nat :=
  match ds.cols with
  | [] => 0
  | c :: _ => c.2.length

def colNames (ds : Dataset) : List String := ds.cols.map Prod.fst

/-- `df[c]` (first column of that name). -/
def getCol (ds : Dataset) (c : String) : Option (List Value) :=
  (ds.cols.find? (fun p => p.1 == c)).map Prod.snd

/-- `c in df.columns`. -/
def hasCol (ds : Dataset) (c : String) : Bool := (ds.getCol c).isSome

def getColD (ds : Dataset) (c : String) : List Value := (ds.getCol c).getD []

/-- The cell of column `c` in row `i`. -/
def cellAt (ds : Dataset) (c : String) (i : Nat) : Value := (ds.getColD c).getD i .null

/-- Rewrite every column in place, keeping names and order. -/
def mapCols (ds : Dataset) (f : String → List Value → List Value) : Dataset :=
  ⟨ds.cols.map (fun p => (p.1, f p.1 p.2))⟩

/-- Append a fresh column at the end (as `df[c] = ...` does for a new name). -/
def addCol (ds : Dataset) (c : String) (vs : List Value) : Dataset :=
  ⟨ds.cols ++ [(c, vs)]⟩

/-- `df[c] = vs`: overwrite the column when present, else append it. -/
def setCol (ds : Dataset) (c : String) (vs : List Value) : Dataset :=
  if ds.hasCol c then ds.mapCols (fun n old => if n == c then vs else old)
  else ds.addCol c vs

/-- Restrict to the named columns, in the order given (`df[names]`). -/
def restrictCols (ds : Dataset) (names : List String) : Dataset :=
  ⟨names.filterMap (fun c => (ds.getCol c).map (fun vs => (c, vs)))⟩

/-- Well-formed frame: rectangular with unique column names (pandas invariant
for frames produced by ingestion). -/
def WF (ds : Dataset) : Prop :=
  (∀ p ∈ ds.cols, p.2.length = ds.nRows) ∧ ds.colNames.Nodup

instance : DecidablePred WF := fun ds => by
  unfold WF
  infer_instance

end Dataset

/-- Row indices (0-based labels) of the cells of a column satisfying `p`. -/
def idxWhere (vs : List Value) (p : Value → Bool) : List Nat :=
  (vs.enum.filter (fun x => p x.2)).map Prod.fst

/-- Row indices at which a boolean mask holds. -/
def idxTrue (mask : List Bool) : List Nat :=
  (mask.enum.filter (fun x => x.2)).map Prod.fst

/-- Stable insertion into a list sorted by the strict comparison `lt`:
the new element goes in front of the first entry not strictly below it. -/
def insBy (lt : α → α → Bool) (a : α) : List α → List α
  | [] => [a]
  | b :: bs => if lt b a then b :: insBy lt a bs else a :: b :: bs

/-- Stable insertion sort by the strict comparison `lt` (models numpy's
argsort, which is stable on pipeline-scale inputs: introsort switches to
insertion sort below 16 elements, and ties keep input order). -/
def sortByB (lt : α → α → Bool) : List α → List α
  | [] => []
  | a :: rest => insBy lt a (sortByB lt rest)

/-- Keys of a grouped frame in first-appearance order. -/
def firstKeys [DecidableEq κ] : List κ → List κ
  | [] => []
  | k :: ks => k :: (firstKeys ks).filter (fun x => decide (x ≠ k))

/-! ## Transformation (`src/transformation.py`) -/

/-- Pandas `Series` addition on one row: `NaN` is absorbing. -/
def addOpt (a b : Option Rat) : Option Rat :=
  match a, b with
  | some x, some y => some (qadd x y)
  | _, _ => none

/-- `abs((base + tax) - total) > 0.01` on one row; any `NaN` operand compares
`False`, as in pandas. -/
def fareIncorrect (bt tot : Option Rat) : Bool :=
  match bt, tot with
  | some s, some t => decide (mkRat 1 100 < qabs (qsub s t))
  | _, _ => false

/-- One cell of the `total_fare` column after `calculate_total_fare`'s
overwrite-then-fill: rows whose recorded total differs from `base + tax` by
more than the tolerance are overwritten with the sum, then rows whose cell is
missing are filled with the sum. -/
def totalFareCell (bt : Option Rat) (v : Value) : Value :=
  let v1 := if fareIncorrect bt (toNumeric v) then optToVal bt else v
  if isna v1 then optToVal bt else v1

/-- `calculate_total_fare`: verify/create `total_fare` from
`base_fare + tax_surcharge`.  A missing `base_fare` or `tax_surcharge` column
raises `KeyError` inside the function's blanket handler, which returns the
frame unchanged. -/
def calculate_total_fare (ds : Dataset) : Dataset :=
  if ds.hasCol "base_fare" && ds.hasCol "tax_surcharge" then
    let base := (ds.getColD "base_fare").map toNumeric
    let tax := (ds.getColD "tax_surcharge").map toNumeric
    let bt := List.zipWith addOpt base tax
    if ds.hasCol "total_fare" then
      ds.mapCols (fun n vs => if n == "total_fare" then List.zipWith totalFareCell bt vs else vs)
    else ds.addCol "total_fare" (bt.map optToVal)
  else ds

/-- Month-based season rule of `classify_season`. -/
def classifyMonth (m : Nat) : String :=
  if m = 5 then "PEAK_EID"
  else if m = 7 then "PEAK_EID"
  else if m = 12 ∨ m = 1 then "PEAK_WINTER"
  else "NON_PEAK"

/-- `classify_season`: `pd.isna` first; strings go through `pd.to_datetime`
(an unparseable string raises, caught to `UNKNOWN`); date objects expose
`.month`; a numeric or boolean object has no `.month`, so the attribute error
is caught to `UNKNOWN`. -/
def classify_season (v : Value) : String :=
  match v with
  | .null => "UNKNOWN"
  | .str s =>
    match parseDate s with
    | some md => classifyMonth md.1
    | none => "UNKNOWN"
  | .dateV m _ => classifyMonth m
  | .num _ => "UNKNOWN"
  | .boolV _ => "UNKNOWN"

/-- String cleaning of one cell: `astype(str).str.strip()` then
`astype(str).str.title()` (the second `astype` is the identity on the
already-string column). -/
def normStr (v : Value) : Value := .str (pyTitle (pyStrip (astypeStr v)))

def stringCols : List String := ["airline", "source", "destination"]

def fareCols : List String := ["base_fare", "tax_surcharge", "total_fare"]

def catCols : List String := ["airline", "source", "destination"]

/-- Step 2 of `clean_and_enrich`: clean the present string columns. -/
def normalizeStrings (ds : Dataset) : Dataset :=
  ds.mapCols (fun n vs => if stringCols.contains n then vs.map normStr else vs)

/-- Step 3 of `clean_and_enrich`: coerce the present fare columns to numeric. -/
def coerceNumericCols (ds : Dataset) : Dataset :=
  ds.mapCols (fun n vs => if fareCols.contains n then vs.map (fun v => optToVal (toNumeric v)) else vs)

/-- `pd.to_datetime` on one cell: missing is `NaT`; an unparseable string
raises (failing the whole column, as pandas does); a numeric cell is read as
an epoch offset, i.e. 1970-01-01 at the magnitudes this pipeline sees; a
boolean raises. -/
def toDateCell (v : Value) : Except Unit (Option (Nat × Nat)) :=
  match v with
  | .null => .ok none
  | .dateV m d => .ok (some (m, d))
  | .str s =>
    match parseDate s with
    | some md => .ok (some md)
    | none => .error ()
  | .num _ => .ok (some (1, 1))
  | .boolV _ => .error ()

/-- Step 4 of `clean_and_enrich`: create `flight_date` when absent — from the
caller-named date column when present (a parse failure inside the `try` sets
the whole column to `None`), else the current processing date. -/
def deriveFlightDate (ds : Dataset) (extract_date_col : Option String) (today : Nat × Nat) :
    Dataset :=
  if ds.hasCol "flight_date" then ds
  else
    match extract_date_col with
    | some c =>
      if ds.hasCol c then
        match (ds.getColD c).mapM toDateCell with
        | .ok dates =>
          ds.setCol "flight_date"
            (dates.map (fun o =>
              match o with
              | some md => Value.dateV md.1 md.2
              | none => Value.null))
        | .error _ => ds.setCol "flight_date" (List.replicate ds.nRows Value.null)
      else ds.setCol "flight_date" (List.replicate ds.nRows (Value.dateV today.1 today.2))
    | none => ds.setCol "flight_date" (List.replicate ds.nRows (Value.dateV today.1 today.2))

/-- Step 5 of `clean_and_enrich`: classify the season of every row. -/
def addSeason (ds : Dataset) : Dataset :=
  if ds.hasCol "flight_date" then
    ds.setCol "season" ((ds.getColD "flight_date").map (fun v => Value.str (classify_season v)))
  else ds.setCol "season" (List.replicate ds.nRows (Value.str "UNKNOWN"))

/-- Step 6 of `clean_and_enrich`: default `is_valid` to `True` when absent. -/
def addIsValid (ds : Dataset) : Dataset :=
  if ds.hasCol "is_valid" then ds
  else ds.setCol "is_valid" (List.replicate ds.nRows (Value.boolV true))

/-- Step 7 of `clean_and_enrich`: stamp the processing time. -/
def addLoadedTimestamp (ds : Dataset) (now : String) : Dataset :=
  ds.setCol "loaded_timestamp" (List.replicate ds.nRows (Value.str now))

/-- `clean_and_enrich`: the seven steps in the source's order.  The ambient
clock is passed explicitly (`today` for step 4's fallback, `now` for step 7),
making the embedding a pure function of its inputs. -/
def clean_and_enrich (ds : Dataset) (extract_date_col : Option String) (today : Nat × Nat)
    (now : String) : Dataset :=
  addLoadedTimestamp
    (addIsValid
      (addSeason
        (deriveFlightDate
          (coerceNumericCols (normalizeStrings (calculate_total_fare ds)))
          extract_date_col today)))
    now

/-- Keep the rows of a column selected by a boolean mask. -/
def keepMask (vs : List α) (keep : List Bool) : List α :=
  ((vs.zip keep).filter (fun p => p.2)).map Prod.fst

/-- Keep the rows of a frame selected by a boolean mask. -/
def Dataset.filterRows (ds : Dataset) (keep : List Bool) : Dataset :=
  ds.mapCols (fun _ vs => keepMask vs keep)

/-- `df.dropna(subset=...)` keep-mask: a row survives when no subset column is
missing there. -/
def dropNullMask (ds : Dataset) (subset : List String) : List Bool :=
  (List.range ds.nRows).map (fun i => ! subset.any (fun c => isna (ds.cellAt c i)))

/-- `Series.median()`: the middle of the sorted non-missing values (mean of
the two middles for an even count); `none` when no value remains. -/
def median (vals : List Rat) : Option Rat :=
  let s := sortByB (fun a b => decide (a < b)) vals
  let n := s.length
  if n = 0 then none
  else if n % 2 = 1 then some (s.getD (n / 2) 0)
  else some (qdiv (qadd (s.getD (n / 2 - 1) 0) (s.getD (n / 2) 0)) (mkRat 2 1))

/-- Forward fill of one column: a missing cell takes the previous non-missing
value, if any has been seen. -/
def ffillCol : Option Value → List Value → List Value
  | _, [] => []
  | last, v :: vs =>
    if isna v then
      match last with
      | some w => w :: ffillCol (some w) vs
      | none => v :: ffillCol none vs
    else v :: ffillCol (some v) vs

def requiredBusinessCols : List String :=
  ["airline", "source", "destination", "base_fare", "tax_surcharge"]

/-- `handle_missing_values`: the four named strategies, and for any other
strategy string a logged warning with the frame returned unchanged and a
change count of 0.  `dropna(subset=...)` raises `KeyError` when a subset
column is absent; this propagates (the function has no handler). -/
def handle_missing_values (ds : Dataset) (strategy : String) : Except String (Dataset × Nat) :=
  if strategy = "drop" then
    if requiredBusinessCols.all ds.hasCol then
      let kept := ds.filterRows (dropNullMask ds requiredBusinessCols)
      .ok (kept, ds.nRows - kept.nRows)
    else .error "KeyError"
  else if strategy = "median" then
    let ds1 := fareCols.foldl (fun d c =>
      if d.hasCol c then
        match median ((d.getColD c).filterMap toNumeric) with
        | some m => d.setCol c ((d.getColD c).map (fun v => optToVal (some ((toNumeric v).getD m))))
        | none => d
      else d) ds
    if catCols.all ds1.hasCol then
      let kept := ds1.filterRows (dropNullMask ds1 catCols)
      .ok (kept, ds1.nRows - kept.nRows)
    else .error "KeyError"
  else if strategy = "forward_fill" then
    let filled := ds.mapCols (fun _ vs => ffillCol none vs)
    let stillNa :=
      ((List.range filled.nRows).filter
        (fun i => filled.colNames.any (fun c => isna (filled.cellAt c i)))).length
    .ok (filled, ds.nRows - stillNa)
  else if strategy = "skip" then .ok (ds, 0)
  else .ok (ds, 0)

/-! ## Validation (`src/validation.py`)

The negative-value check catches exceptions per fare column, and the
fare-consistency check catches exceptions around its whole body; both log the
error and carry on with nothing flagged.  These are the only guarded regions
of the validator.  Exceptions cannot arise in the pure embedding, so they are
modelled as injected faults: `negFault c = some msg` means "the body of the
negative check raised while processing column `c`", `fareFault = some msg`
means "the body of the fare-consistency check raised".  The fault-free run
(`noFault`, `none`) is the code's actual behaviour on in-memory frames. -/

structure CheckEntry where
  check_name : String
  check_type : String
  records_passed : Int
  records_failed : Int
  error_message : Option String
deriving DecidableEq, Repr

structure ValidationReport where
  total_records : Int
  valid_records : Int
  invalid_records : Int
  flagged_records : Int
  checks_performed : List CheckEntry
deriving DecidableEq, Repr

/-- `validity_percentage` as computed by `ValidationReport.to_dict`. -/
def validity_percentage (r : ValidationReport) : Rat :=
  if 0 < r.total_records then
    qmul (qdiv (mkRat r.valid_records 1) (mkRat r.total_records 1)) (mkRat 100 1)
  else 0

def requiredColumns : List String :=
  ["airline", "source", "destination", "base_fare", "tax_surcharge", "total_fare",
   "departure_date"]

def missingRequired (ds : Dataset) : List String :=
  requiredColumns.filter (fun c => ! ds.hasCol c)

/-- `validate_required_columns`: `(is_valid, error_message)`. -/
def validate_required_columns (ds : Dataset) : Bool × String :=
  let missing := missingRequired ds
  if missing.isEmpty then (true, "")
  else (false, "Missing required columns: " ++ toString missing)

/-- A present value that does not coerce to a number
(`pd.to_numeric(...).isna() & notna()`). -/
def numBadPred (v : Value) : Bool := (toNumeric v).isNone && ! isna v

/-- A value that is the empty string after `astype(str).str.strip()`. -/
def strBadPred (v : Value) : Bool := pyStrip (astypeStr v) == ""

/-- `value < 0` on the coerced cell (`NaN` compares `False`). -/
def negPred (v : Value) : Bool :=
  match toNumeric v with
  | some q => decide (q < 0)
  | none => false

/-- Case-insensitive whitelist miss. -/
def cityPred (lowered : List String) (v : Value) : Bool :=
  ! lowered.contains (pyLower (astypeStr v))

/-- `validate_data_types`: per-field invalid row indices, keyed in the
source's dict-insertion order.  Numeric fields flag present values that do
not coerce; string fields flag values that are empty after `strip`. -/
def validate_data_types (ds : Dataset) : List (String × List Nat) :=
  [("airline", if ds.hasCol "airline" then idxWhere (ds.getColD "airline") strBadPred else []),
   ("source", if ds.hasCol "source" then idxWhere (ds.getColD "source") strBadPred else []),
   ("destination",
    if ds.hasCol "destination" then idxWhere (ds.getColD "destination") strBadPred else []),
   ("base_fare",
    if ds.hasCol "base_fare" then idxWhere (ds.getColD "base_fare") numBadPred else []),
   ("tax_surcharge",
    if ds.hasCol "tax_surcharge" then idxWhere (ds.getColD "tax_surcharge") numBadPred else []),
   ("total_fare",
    if ds.hasCol "total_fare" then idxWhere (ds.getColD "total_fare") numBadPred else [])]

def metadataCols : List String :=
  ["id", "source_file", "ingestion_timestamp", "record_status", "validation_errors"]

/-- `check_null_values`: null row indices per non-metadata, non-whitelisted
column; only columns with at least one null are reported. -/
def check_null_values (ds : Dataset) (allow_null_cols : List String) : List (String × List Nat) :=
  ds.cols.filterMap (fun p =>
    if allow_null_cols.contains p.1 || metadataCols.contains p.1 then none
    else if (idxWhere p.2 isna).isEmpty then none
    else some (p.1, idxWhere p.2 isna))

/-- `check_negative_values`: negative row indices per present fare column.
The per-column `try` means a column whose processing raises contributes
nothing (the error is logged, not reported). -/
def check_negative_values (ds : Dataset) (negFault : String → Option String) :
    List (String × List Nat) :=
  fareCols.filterMap (fun c =>
    if ds.hasCol c then
      match negFault c with
      | some _ => none
      | none =>
        if (idxWhere (ds.getColD c) negPred).isEmpty then none
        else some (c, idxWhere (ds.getColD c) negPred)
    else none)

/-- `check_valid_cities`: case-insensitive whitelist test on `source` and
`destination`; with no whitelist (or an empty one — Python truthiness) the
check is skipped entirely. -/
def check_valid_cities (ds : Dataset) (valid_cities : Option (List String)) :
    List (String × List Nat) :=
  match valid_cities with
  | some cities =>
    if cities.isEmpty then []
    else
      ["source", "destination"].filterMap (fun c =>
        if ds.hasCol c then
          if (idxWhere (ds.getColD c) (cityPred (cities.map pyLower))).isEmpty then none
          else some (c, idxWhere (ds.getColD c) (cityPred (cities.map pyLower)))
        else none)
  | none => []

/-- `check_fare_consistency`: rows where `|base + tax − total| > 0.01` with
all three columns present; rows with a non-numeric operand compare `False`.
A raise inside the body (`fareFault`) leaves the flagged list empty. -/
def check_fare_consistency (ds : Dataset) (fareFault : Option String) : List Nat :=
  if fareCols.all ds.hasCol then
    match fareFault with
    | some _ => []
    | none =>
      let base := (ds.getColD "base_fare").map toNumeric
      let tax := (ds.getColD "tax_surcharge").map toNumeric
      let total := (ds.getColD "total_fare").map toNumeric
      let bt := List.zipWith addOpt base tax
      idxTrue (List.zipWith fareIncorrect bt total)
  else []

/-- Flatten the per-column index lists of a check result. -/
def flatIdx (l : List (String × List Nat)) : List Nat := (l.map Prod.snd).flatten

/-- The fault-free execution environment. -/
def noFault : String → Option String := fun _ => none

/-- `len(set(l))`, as an `Int` (check tallies are Python integers, which can
go negative in `total - count`). -/
def setCount (l : List Nat) : Int := ((l.toFinset.card : Nat) : Int)

/-- The type check's failure tally: the SUM of the per-column list lengths
(the one tally the source does not deduplicate). -/
def dtypeFailCount (ds : Dataset) : Int :=
  ((((validate_data_types ds).map (fun p => p.2.length)).sum : Nat) : Int)

/-- `all_invalid_indices`: the concatenation whose value-set the source
accumulates with `set.update` across the five checks. -/
def unionList (ds : Dataset) (valid_cities : Option (List String))
    (negFault : String → Option String) (fareFault : Option String) : List Nat :=
  flatIdx (validate_data_types ds) ++ flatIdx (check_null_values ds []) ++
    flatIdx (check_negative_values ds negFault) ++ flatIdx (check_valid_cities ds valid_cities) ++
    check_fare_consistency ds fareFault

/-- `validate_data_quality`: required-columns short-circuit, then the five
checks in order, then the overall tally over the union of flagged indices
(`valid = total - invalid`). -/
def validate_data_quality (ds : Dataset) (valid_cities : Option (List String))
    (negFault : String → Option String) (fareFault : Option String) : ValidationReport :=
  if (validate_required_columns ds).1 = false then
    { total_records := (ds.nRows : Int), valid_records := 0, invalid_records := (ds.nRows : Int),
      flagged_records := 0,
      checks_performed :=
        [⟨"Required Columns", "COLUMN_VALIDATION", 0, (ds.nRows : Int),
          some (validate_required_columns ds).2⟩] }
  else
    { total_records := (ds.nRows : Int),
      valid_records := (ds.nRows : Int) - setCount (unionList ds valid_cities negFault fareFault),
      invalid_records := setCount (unionList ds valid_cities negFault fareFault),
      flagged_records := 0,
      checks_performed :=
        [⟨"Data Types", "TYPE_CHECK", (ds.nRows : Int) - dtypeFailCount ds,
          dtypeFailCount ds, none⟩,
         ⟨"Null Values", "NULLS",
          (ds.nRows : Int) - setCount (flatIdx (check_null_values ds [])),
          setCount (flatIdx (check_null_values ds [])), none⟩,
         ⟨"Negative Values", "BUSINESS_RULE",
          (ds.nRows : Int) - setCount (flatIdx (check_negative_values ds negFault)),
          setCount (flatIdx (check_negative_values ds negFault)), none⟩,
         ⟨"Valid Cities", "BUSINESS_RULE",
          (ds.nRows : Int) - setCount (flatIdx (check_valid_cities ds valid_cities)),
          setCount (flatIdx (check_valid_cities ds valid_cities)), none⟩,
         ⟨"Fare Consistency", "BUSINESS_RULE",
          (ds.nRows : Int) - ((check_fare_consistency ds fareFault).length : Int),
          ((check_fare_consistency ds fareFault).length : Int), none⟩] }

/-! ## KPI aggregation (`src/kpi_calculator.py`)

Aggregation arithmetic happens on float Series where division can produce
infinities; `PFloat` extends the rationals accordingly (`nan` is missing). -/

inductive PFloat where
  | nan
  | finite (q : Rat)
  | posInf
  | negInf
deriving DecidableEq, Repr

/-- Float subtraction: `NaN` absorbs; `∞ − ∞` is `NaN`. -/
def psub (a b : PFloat) : PFloat :=
  match a, b with
  | .finite x, .finite y => .finite (qsub x y)
  | .posInf, .finite _ => .posInf
  | .negInf, .finite _ => .negInf
  | .finite _, .posInf => .negInf
  | .finite _, .negInf => .posInf
  | .posInf, .negInf => .posInf
  | .negInf, .posInf => .negInf
  | _, _ => .nan

/-- Float division: `NaN` absorbs; numpy turns `x / 0` into `±∞` by the sign
of `x` (and `0 / 0` into `NaN`). -/
def pdiv (a b : PFloat) : PFloat :=
  match a, b with
  | .finite x, .finite y =>
    if y = 0 then (if 0 < x then .posInf else if x < 0 then .negInf else .nan)
    else .finite (qdiv x y)
  | .finite _, .posInf => .finite 0
  | .finite _, .negInf => .finite 0
  | .posInf, .finite y => if 0 ≤ y then .posInf else .negInf
  | .negInf, .finite y => if 0 ≤ y then .negInf else .posInf
  | _, _ => .nan

/-- Multiplication by a positive rational constant. -/
def pmulPos (a : PFloat) (k : Rat) : PFloat :=
  match a with
  | .finite x => .finite (qmul x k)
  | .nan => .nan
  | .posInf => .posInf
  | .negInf => .negInf

/-- `round(2)` on a float (the identity on `NaN` and infinities). -/
def pround2 : PFloat → PFloat
  | .finite x => .finite (round2 x)
  | a => a

/-- `Series.mean()`: the mean of the non-missing values, `NaN` when none. -/
def meanOpt (vals : List (Option Rat)) : PFloat :=
  let xs := vals.filterMap id
  if xs.length = 0 then .nan
  else .finite (qdiv (xs.foldl qadd 0) (mkRat (xs.length : Int) 1))

/-- `groupby(key)["total_fare"].agg(["mean", "count"]).round(2)`: one entry
per non-missing key with the rounded mean and the count of non-missing
values.  Keys are listed in first-appearance order; the callers below consult
this table only by lookup and membership, so the order is immaterial. -/
def groupMeanCount (pairs : List (Value × Option Rat)) : List (Value × PFloat × Nat) :=
  let keys := firstKeys ((pairs.map Prod.fst).filter (fun k => ! isna k))
  keys.map (fun k =>
    let vals := (pairs.filter (fun p => p.1 == k)).map Prod.snd
    (k, pround2 (meanOpt vals), (vals.filterMap id).length))

structure SeasonalRow where
  airline : Value
  avg_fare_peak : PFloat
  peak_booking_count : Nat
  avg_fare_non_peak : PFloat
  non_peak_booking_count : Nat
  fare_difference : PFloat
  peak_percentage_increase : PFloat
deriving DecidableEq, Repr

/-- Assigning a Python `set` as a DataFrame column.  pandas constructs a
`Series` from the value and its `sanitize_array` rejects every instance of
`abc.Set` with `TypeError("Set type is unordered")` — unconditionally, so
this always raises. -/
def seriesFromSet (_elems : List Value) : Except String (List Value) :=
  .error "Set type is unordered"

def isPeakSeason (v : Value) : Bool := v == .str "PEAK_EID" || v == .str "PEAK_WINTER"

def isNonPeakSeason (v : Value) : Bool := v == .str "NON_PEAK"

/-- Float key order on non-`NaN` floats (`-∞ < finite < ∞`) for sorting. -/
def pfinLt (a b : PFloat) : Bool :=
  match a, b with
  | .negInf, .negInf => false
  | .negInf, _ => true
  | .finite _, .negInf => false
  | .finite x, .finite y => decide (x < y)
  | .finite _, .posInf => true
  | .posInf, _ => false
  | .nan, _ => false
  | _, .nan => false

def pIsNan : PFloat → Bool
  | .nan => true
  | _ => false

/-- `sort_values(key, ascending=False, na_position="last")` as pandas
implements it: a stable ascending argsort of the non-`NaN` keys whose indexer
is then reversed, with the `NaN` rows appended in original order.  (numpy's
default sort is stable at pipeline scale: introsort runs insertion sort below
16 elements.) -/
def sortDescByKey (keyNan : α → Bool) (ltKey : α → α → Bool) (l : List α) : List α :=
  (sortByB ltKey (l.filter (fun x => ! keyNan x))).reverse ++ l.filter keyNan

/-- The body of `compute_seasonal_variation`, step for step.  The assignment
`variation["airline"] = set(...) | set(...)` raises inside pandas (see
`seriesFromSet`), so the `.ok` branch is unreachable; the statements after it
are nevertheless embedded as written. -/
def seasonal_variation_body (ds : Dataset) : Except String (List SeasonalRow) := do
  if ds.hasCol "total_fare" && ds.hasCol "season" && ds.hasCol "airline" then
    let tf := (ds.getColD "total_fare").map toNumeric
    let rows := (ds.getColD "airline").zip ((ds.getColD "season").zip tf)
    let peak := (rows.filter (fun r => isPeakSeason r.2.1)).map (fun r => (r.1, r.2.2))
    let nonPeak := (rows.filter (fun r => isNonPeakSeason r.2.1)).map (fun r => (r.1, r.2.2))
    let peakBy := groupMeanCount peak
    let nonPeakBy := groupMeanCount nonPeak
    let airlineUnion := firstKeys (peakBy.map (fun g => g.1) ++ nonPeakBy.map (fun g => g.1))
    let airlineCol ← seriesFromSet airlineUnion
    let lookupMean := fun (tbl : List (Value × PFloat × Nat)) (k : Value) =>
      match tbl.find? (fun g => g.1 == k) with
      | some g => g.2.1
      | none => PFloat.nan
    let lookupCount := fun (tbl : List (Value × PFloat × Nat)) (k : Value) =>
      match tbl.find? (fun g => g.1 == k) with
      | some g => g.2.2
      | none => 0
    let out := airlineCol.map (fun a =>
      let ap := pround2 (lookupMean peakBy a)
      let an := pround2 (lookupMean nonPeakBy a)
      let fd := pround2 (psub ap an)
      { airline := a, avg_fare_peak := ap, peak_booking_count := lookupCount peakBy a,
        avg_fare_non_peak := an, non_peak_booking_count := lookupCount nonPeakBy a,
        fare_difference := fd,
        peak_percentage_increase := pround2 (pmulPos (pdiv fd an) (mkRat 100 1)) })
    return sortDescByKey (fun r => pIsNan r.peak_percentage_increase)
      (fun r s => pfinLt r.peak_percentage_increase s.peak_percentage_increase) out
  else throw "KeyError"

/-- `compute_seasonal_variation`: the body under the function's blanket
handler, which turns any raise into an empty frame. -/
def compute_seasonal_variation (ds : Dataset) : List SeasonalRow :=
  match seasonal_variation_body ds with
  | .ok out => out
  | .error _ => []

structure RouteRow where
  source : Value
  destination : Value
  booking_count : Nat
  route_rank : Nat
  avg_fare_on_route : PFloat
deriving DecidableEq, Repr

/-- Lexicographic comparison of character lists by code point (Python string
order). -/
def charListLt : List Char → List Char → Bool
  | [], [] => false
  | [], _ :: _ => true
  | _ :: _, [] => false
  | a :: l₁, b :: l₂ =>
    if a.toNat < b.toNat then true
    else if b.toNat < a.toNat then false
    else charListLt l₁ l₂

def strLtB (a b : String) : Bool := charListLt a.data b.data

def valueRank : Value → Nat
  | .num _ => 0
  | .str _ => 1
  | .boolV _ => 2
  | .dateV _ _ => 3
  | .null => 4

/-- Sorting order on group keys, as Python compares them: strings by code
point, numbers by value.  Mixed-type keys would raise `TypeError` in pandas;
the theorems below only quantify over string keys (the enriched schema), for
which this order is exact. -/
def valueLtB (a b : Value) : Bool :=
  match a, b with
  | .num x, .num y => decide (x < y)
  | .str x, .str y => strLtB x y
  | _, _ => decide (valueRank a < valueRank b)

/-- Tuple order on `(source, destination)` keys. -/
def keyLtB (a b : Value × Value) : Bool :=
  if valueLtB a.1 b.1 then true
  else if valueLtB b.1 a.1 then false
  else valueLtB a.2 b.2

/-- `groupby(["source", "destination"]).agg({"total_fare": ["count", "mean"]})`:
rows with a missing key are dropped, keys appear sorted ascending
(`sort=True`), `count` counts non-missing `total_fare` values and `mean`
averages them. -/
def routeGroups (ds : Dataset) : List ((Value × Value) × Nat × PFloat) :=
  let tf := (ds.getColD "total_fare").map toNumeric
  let rows := (((ds.getColD "source").zip (ds.getColD "destination")).zip tf).filter
    (fun r => ! isna r.1.1 && ! isna r.1.2)
  let keys := sortByB keyLtB (firstKeys (rows.map Prod.fst))
  keys.map (fun k =>
    let vals := (rows.filter (fun r => r.1 == k)).map Prod.snd
    (k, (vals.filterMap id).length, meanOpt vals))

/-- Build the output row from a 0-based position and its route group:
`route_rank` is the position plus one, the mean fare is rounded to 2
decimals. -/
def rankRoute (x : Nat × ((Value × Value) × Nat × PFloat)) : RouteRow :=
  { source := x.2.1.1, destination := x.2.1.2, booking_count := x.2.2.1,
    route_rank := x.1 + 1, avg_fare_on_route := pround2 x.2.2.2 }

/-- Ascending comparison of route groups by booking count (the argsort key
of `sort_values("booking_count")`). -/
def cntLtRoute (a b : (Value × Value) × Nat × PFloat) : Bool := decide (a.2.1 < b.2.1)

/-- `sort_values("booking_count", ascending=False)` on the grouped frame:
pandas reverses a stable ascending argsort (the counts carry no `NaN`). -/
def routesSorted (ds : Dataset) : List ((Value × Value) × Nat × PFloat) :=
  (sortByB cntLtRoute (routeGroups ds)).reverse

/-- `compute_popular_routes`: group by route, sort descending by booking
count, rank `1..N` in that order, round the mean fare, return the first
`top_n` rows.  A missing column raises into the blanket handler, giving an
empty frame. -/
def compute_popular_routes (ds : Dataset) (top_n : Nat) : List RouteRow :=
  if ds.hasCol "total_fare" && ds.hasCol "source" && ds.hasCol "destination" then
    ((routesSorted ds).enum.map rankRoute).take top_n
  else []

/-! ## Sample frames used by the witnesses and counterexamples -/

/-- A well-formed two-row frame with all required columns present and clean
values. -/
def sampleClean : Dataset :=
  ⟨[("airline", [.str " air x ", .str "AIR Y"]),
    ("source", [.str "DAC", .str "CGP"]),
    ("destination", [.str "CGP", .str "DAC"]),
    ("base_fare", [.num 100, .num 200]),
    ("tax_surcharge", [.num 20, .num 30]),
    ("total_fare", [.num 150, .num 230]),
    ("departure_date", [.str "2024-05-01", .str "2024-02-10"])]⟩

/-- Rows on which the total-fare reconciliation cannot restore the invariant:
row 0 has a non-numeric `base_fare`, row 1 has a non-numeric string in
`total_fare` (not missing at fill time, `NaN` after the later coercion). -/
def cexFares : Dataset :=
  ⟨[("airline", [.str "A", .str "B"]),
    ("source", [.str "DAC", .str "CGP"]),
    ("destination", [.str "CGP", .str "DAC"]),
    ("base_fare", [.str "abc", .num 100]),
    ("tax_surcharge", [.num 20, .num 20]),
    ("total_fare", [.num 100, .str "xyz"]),
    ("departure_date", [.str "2024-05-01", .str "2024-02-10"])]⟩

/-- A frame with the `total_fare` column absent. -/
def noTotalCol : Dataset :=
  ⟨[("airline", [.str "A"]),
    ("source", [.str "DAC"]),
    ("destination", [.str "CGP"]),
    ("base_fare", [.num 100]),
    ("tax_surcharge", [.num 20]),
    ("departure_date", [.str "2024-05-01"])]⟩

/-- Three one-booking routes, first seen in the order C, A, B. -/
def cexRoutes : Dataset :=
  ⟨[("source", [.str "C", .str "A", .str "B"]),
    ("destination", [.str "C", .str "A", .str "B"]),
    ("total_fare", [.num 10, .num 20, .num 30])]⟩

/-- A frame with an input `season` column holding a parseable date string:
using it as `extract_date_col` breaks idempotence because step 5 of the
transformation overwrites `season` before the second pass reads it. -/
def cexSeasonCol : Dataset :=
  ⟨[("airline", [.str "A"]),
    ("base_fare", [.num 100]),
    ("tax_surcharge", [.num 20]),
    ("total_fare", [.num 120]),
    ("season", [.str "2024-05-06"])]⟩

/-- A frame with an input `loaded_timestamp` column holding a parseable date
string: using it as `extract_date_col` breaks idempotence because step 7
overwrites `loaded_timestamp` before the second pass reads it. -/
def cexTsCol : Dataset :=
  ⟨[("airline", [.str "A"]),
    ("base_fare", [.num 100]),
    ("tax_surcharge", [.num 20]),
    ("total_fare", [.num 120]),
    ("loaded_timestamp", [.str "2024-05-06"])]⟩

end FlightPipeline

namespace FlightPipeline

/-! # Theorems -/

/-! ## Bridges from the `mkRat` wrappers to the Mathlib operations -/

theorem qadd_eq (a b : Rat) : qadd a b = a + b := by
  have ha : ((a.den : Rat)) ≠ 0 := by exact_mod_cast a.den_nz
  have hb : ((b.den : Rat)) ≠ 0 := by exact_mod_cast b.den_nz
  unfold qadd
  rw [Rat.mkRat_eq_div]
  push_cast
  conv_rhs => rw [← Rat.num_div_den a, ← Rat.num_div_den b]
  rw [div_add_div _ _ ha hb]
  ring_nf

theorem qsub_eq (a b : Rat) : qsub a b = a - b := by
  have ha : ((a.den : Rat)) ≠ 0 := by exact_mod_cast a.den_nz
  have hb : ((b.den : Rat)) ≠ 0 := by exact_mod_cast b.den_nz
  unfold qsub
  rw [Rat.mkRat_eq_div]
  push_cast
  conv_rhs => rw [← Rat.num_div_den a, ← Rat.num_div_den b]
  rw [div_sub_div _ _ ha hb]
  ring_nf

theorem qmul_eq (a b : Rat) : qmul a b = a * b := by
  have ha : ((a.den : Rat)) ≠ 0 := by exact_mod_cast a.den_nz
  have hb : ((b.den : Rat)) ≠ 0 := by exact_mod_cast b.den_nz
  unfold qmul
  rw [Rat.mkRat_eq_div]
  push_cast
  conv_rhs => rw [← Rat.num_div_den a, ← Rat.num_div_den b]
  rw [div_mul_div_comm]

theorem qinv_eq (a : Rat) : qinv a = a⁻¹ := by
  have hnum : a⁻¹ = ((a.den : Int) : Rat) / ((a.num : Rat)) := by
    have h0 : a⁻¹ = Rat.divInt (a.den : Int) a.num := Rat.inv_def a
    rw [h0, Rat.divInt_eq_div]
  unfold qinv
  by_cases h : 0 ≤ a.num
  · rw [if_pos h, Rat.mkRat_eq_div, hnum]
    congr 1
    exact_mod_cast congrArg (fun n : Int => (n : Rat)) (Int.toNat_of_nonneg h)
  · rw [if_neg h, Rat.mkRat_eq_div, hnum]
    have h2 : (((-a.num).toNat : Int) : Rat) = -(a.num : Rat) := by
      exact_mod_cast congrArg (fun n : Int => (n : Rat))
        (Int.toNat_of_nonneg (by omega : (0:Int) ≤ -a.num))
    push_cast at h2 ⊢
    rw [h2, div_neg, neg_neg]

theorem qdiv_eq (a b : Rat) : qdiv a b = a / b := by
  rw [qdiv, qmul_eq, qinv_eq, div_eq_mul_inv]

theorem qabs_eq (a : Rat) : qabs a = |a| := by
  unfold qabs
  by_cases h : a.num < 0
  · rw [if_pos h, abs_of_neg (by rw [← not_le, ← Rat.num_nonneg]; omega)]
  · rw [if_neg h, abs_of_nonneg (by rw [← Rat.num_nonneg]; omega)]

/-! ## C3: season classification -/

/-- C3: `classify_season` is a pure total function of the date: a date in
month 5 or 7 classifies as `PEAK_EID`, month 12 or 1 as `PEAK_WINTER`, any
other valid month as `NON_PEAK`; a missing date, and a date string that does
not parse, classify as `UNKNOWN` (a parseable string classifies by its
month). -/
theorem C3_classify_season (m d : Nat) (s : String) :
    ((m = 5 ∨ m = 7) → classify_season (.dateV m d) = "PEAK_EID") ∧
    ((m = 12 ∨ m = 1) → classify_season (.dateV m d) = "PEAK_WINTER") ∧
    (1 ≤ m → m ≤ 12 → m ≠ 5 → m ≠ 7 → m ≠ 12 → m ≠ 1 →
      classify_season (.dateV m d) = "NON_PEAK") ∧
    classify_season .null = "UNKNOWN" ∧
    (parseDate s = none → classify_season (.str s) = "UNKNOWN") ∧
    (∀ md, parseDate s = some md → classify_season (.str s) = classifyMonth md.1) := by
  refine ⟨?_, ?_, ?_, rfl, ?_, ?_⟩
  · rintro (rfl | rfl) <;> rfl
  · rintro (rfl | rfl) <;> rfl
  · intro _ _ h5 h7 h12 h1
    show classifyMonth m = "NON_PEAK"
    unfold classifyMonth
    rw [if_neg h5, if_neg h7, if_neg (by
      intro hc
      rcases hc with hc | hc
      · exact h12 hc
      · exact h1 hc)]
  · intro h
    show (match parseDate s with
          | some md => classifyMonth md.1
          | none => "UNKNOWN") = "UNKNOWN"
    rw [h]
  · intro md h
    show (match parseDate s with
          | some md => classifyMonth md.1
          | none => "UNKNOWN") = classifyMonth md.1
    rw [h]

/-- Witness for C3 at concrete dates and strings. -/
theorem C3_classify_season_witness :
    classify_season (.dateV 5 9) = "PEAK_EID" ∧
    classify_season (.dateV 7 2) = "PEAK_EID" ∧
    classify_season (.dateV 12 25) = "PEAK_WINTER" ∧
    classify_season (.dateV 1 1) = "PEAK_WINTER" ∧
    classify_season (.dateV 3 15) = "NON_PEAK" ∧
    classify_season .null = "UNKNOWN" ∧
    classify_season (.str "hello") = "UNKNOWN" ∧
    classify_season (.str "2024-02-10") = classifyMonth 2 :=
  ⟨(C3_classify_season 5 9 "").1 (Or.inl rfl),
   (C3_classify_season 7 2 "").1 (Or.inr rfl),
   (C3_classify_season 12 25 "").2.1 (Or.inl rfl),
   (C3_classify_season 1 1 "").2.1 (Or.inr rfl),
   (C3_classify_season 3 15 "").2.2.1 (by decide) (by decide) (by decide) (by decide)
     (by decide) (by decide),
   (C3_classify_season 3 15 "").2.2.2.1,
   (C3_classify_season 3 15 "hello").2.2.2.2.1 (by decide),
   (C3_classify_season 3 15 "2024-02-10").2.2.2.2.2 (2, 10) (by decide)⟩

/-! ## C10: unknown missing-value strategy -/

/-- C10: for every strategy string other than `drop`, `median`,
`forward_fill` and `skip`, `handle_missing_values` raises nothing and returns
the frame unchanged with a changed-row count of 0. -/
theorem C10_unknown_strategy (ds : Dataset) (strategy : String)
    (h1 : strategy ≠ "drop") (h2 : strategy ≠ "median")
    (h3 : strategy ≠ "forward_fill") (h4 : strategy ≠ "skip") :
    handle_missing_values ds strategy = .ok (ds, 0) := by
  unfold handle_missing_values
  rw [if_neg h1, if_neg h2, if_neg h3, if_neg h4]

/-- Witness for C10 at a concrete frame and strategy. -/
theorem C10_unknown_strategy_witness :
    (("bogus" : String) ≠ "drop" ∧ ("bogus" : String) ≠ "median" ∧
      ("bogus" : String) ≠ "forward_fill" ∧ ("bogus" : String) ≠ "skip") ∧
    handle_missing_values sampleClean "bogus" = .ok (sampleClean, 0) :=
  ⟨⟨by decide, by decide, by decide, by decide⟩,
   C10_unknown_strategy sampleClean "bogus" (by decide) (by decide) (by decide) (by decide)⟩

/-! ## C5: seasonal variation -/

/-- C5: `compute_seasonal_variation` returns the empty frame on every input.
The line `variation["airline"] = set(peak.index) | set(non_peak.index)`
assigns a Python `set` as a column, which pandas rejects with
`TypeError("Set type is unordered")`; the function's blanket handler turns
the raise into an empty frame, so none of the documented output is ever
produced. -/
theorem C5_seasonal_variation_empty (ds : Dataset) :
    compute_seasonal_variation ds = [] := by
  have hbody : ∃ e, seasonal_variation_body ds = .error e := by
    unfold seasonal_variation_body
    by_cases h : (ds.hasCol "total_fare" && ds.hasCol "season" && ds.hasCol "airline") = true
    · rw [if_pos h]
      exact ⟨"Set type is unordered", rfl⟩
    · rw [if_neg h]
      exact ⟨"KeyError", rfl⟩
  obtain ⟨e, he⟩ := hbody
  unfold compute_seasonal_variation
  rw [he]

/-! ## Row-index bounds of the validation checks -/

theorem mem_idxWhere_lt {vs : List Value} {p : Value → Bool} {x : Nat}
    (h : x ∈ idxWhere vs p) : x < vs.length := by
  unfold idxWhere at h
  rw [List.mem_map] at h
  obtain ⟨pr, hpr, rfl⟩ := h
  rw [List.mem_filter] at hpr
  have h1 := List.mem_enum_iff_getElem?.mp hpr.1
  obtain ⟨hlt, -⟩ := List.getElem?_eq_some.mp h1
  exact hlt

theorem mem_idxTrue_lt {mask : List Bool} {x : Nat} (h : x ∈ idxTrue mask) : x < mask.length := by
  unfold idxTrue at h
  rw [List.mem_map] at h
  obtain ⟨pr, hpr, rfl⟩ := h
  rw [List.mem_filter] at hpr
  have h1 := List.mem_enum_iff_getElem?.mp hpr.1
  obtain ⟨hlt, -⟩ := List.getElem?_eq_some.mp h1
  exact hlt

theorem length_getColD {ds : Dataset} {c : String} (hwf : ds.WF) (h : ds.hasCol c = true) :
    (ds.getColD c).length = ds.nRows := by
  unfold Dataset.hasCol Dataset.getCol at h
  cases hfind : ds.cols.find? (fun p => p.1 == c) with
  | none => rw [hfind] at h; simp at h
  | some q =>
    have hq := List.mem_of_find?_eq_some hfind
    have hlen := hwf.1 q hq
    unfold Dataset.getColD Dataset.getCol
    rw [hfind]
    simpa using hlen

theorem idx_lt_of_col {ds : Dataset} {c : String} (hwf : ds.WF) (hcol : ds.hasCol c = true)
    {p : Value → Bool} {x : Nat} (hx : x ∈ idxWhere (ds.getColD c) p) : x < ds.nRows :=
  lt_of_lt_of_eq (mem_idxWhere_lt hx) (length_getColD hwf hcol)

theorem type_idx_lt {ds : Dataset} (hwf : ds.WF) :
    ∀ x ∈ flatIdx (validate_data_types ds), x < ds.nRows := by
  intro x hx
  unfold flatIdx validate_data_types at hx
  rw [List.mem_flatten] at hx
  obtain ⟨s, hs, hxs⟩ := hx
  rw [List.mem_map] at hs
  obtain ⟨entry, hentry, rfl⟩ := hs
  simp only [List.mem_cons, List.not_mem_nil, or_false] at hentry
  rcases hentry with rfl | rfl | rfl | rfl | rfl | rfl <;>
    · simp only at hxs
      split at hxs
      · exact idx_lt_of_col hwf (by assumption) hxs
      · simp at hxs

theorem null_idx_lt {ds : Dataset} (hwf : ds.WF) :
    ∀ x ∈ flatIdx (check_null_values ds []), x < ds.nRows := by
  intro x hx
  unfold flatIdx at hx
  rw [List.mem_flatten] at hx
  obtain ⟨s, hs, hxs⟩ := hx
  rw [List.mem_map] at hs
  obtain ⟨entry, hentry, rfl⟩ := hs
  unfold check_null_values at hentry
  rw [List.mem_filterMap] at hentry
  obtain ⟨p, hp, hpe⟩ := hentry
  split at hpe
  · simp at hpe
  · split at hpe
    · simp at hpe
    · have he : entry = (p.1, idxWhere p.2 isna) := (Option.some_injective _ hpe).symm
      rw [he] at hxs
      exact lt_of_lt_of_eq (mem_idxWhere_lt hxs) (hwf.1 p hp)

theorem neg_idx_lt {ds : Dataset} (hwf : ds.WF) (negFault : String → Option String) :
    ∀ x ∈ flatIdx (check_negative_values ds negFault), x < ds.nRows := by
  intro x hx
  unfold flatIdx at hx
  rw [List.mem_flatten] at hx
  obtain ⟨s, hs, hxs⟩ := hx
  rw [List.mem_map] at hs
  obtain ⟨entry, hentry, rfl⟩ := hs
  unfold check_negative_values at hentry
  rw [List.mem_filterMap] at hentry
  obtain ⟨c, hc, hpe⟩ := hentry
  split at hpe
  · split at hpe
    · simp at hpe
    · split at hpe
      · simp at hpe
      · have he : entry = (c, idxWhere (ds.getColD c) negPred) :=
          (Option.some_injective _ hpe).symm
        rw [he] at hxs
        exact idx_lt_of_col hwf (by assumption) hxs
  · simp at hpe

theorem city_idx_lt {ds : Dataset} (hwf : ds.WF) (valid_cities : Option (List String)) :
    ∀ x ∈ flatIdx (check_valid_cities ds valid_cities), x < ds.nRows := by
  intro x hx
  unfold flatIdx at hx
  rw [List.mem_flatten] at hx
  obtain ⟨s, hs, hxs⟩ := hx
  rw [List.mem_map] at hs
  obtain ⟨entry, hentry, rfl⟩ := hs
  unfold check_valid_cities at hentry
  split at hentry
  · split at hentry
    · simp at hentry
    · rw [List.mem_filterMap] at hentry
      obtain ⟨c, hc, hpe⟩ := hentry
      split at hpe
      · split at hpe
        · simp at hpe
        · rename_i cities hne hcol hbad
          have he : entry = (c, idxWhere (ds.getColD c) (cityPred (cities.map pyLower))) :=
            (Option.some_injective _ hpe).symm
          rw [he] at hxs
          exact idx_lt_of_col hwf (by assumption) hxs
      · simp at hpe
  · simp at hentry

theorem fare_idx_lt {ds : Dataset} (hwf : ds.WF) (fareFault : Option String) :
    ∀ x ∈ check_fare_consistency ds fareFault, x < ds.nRows := by
  intro x hx
  unfold check_fare_consistency at hx
  split at hx
  · rename_i hall
    have h3 : ds.hasCol "base_fare" = true ∧ ds.hasCol "tax_surcharge" = true ∧
        ds.hasCol "total_fare" = true := by
      simp [fareCols, List.all_cons] at hall
      exact ⟨hall.1, hall.2.1, hall.2.2⟩
    split at hx
    · simp at hx
    · have hb := mem_idxTrue_lt hx
      rw [List.length_zipWith, List.length_zipWith, List.length_map, List.length_map,
        List.length_map] at hb
      rw [length_getColD hwf h3.1, length_getColD hwf h3.2.1, length_getColD hwf h3.2.2] at hb
      omega
  · simp at hx

theorem unionList_nonneg (ds : Dataset) (cities : Option (List String))
    (negFault : String → Option String) (fareFault : Option String) :
    0 ≤ setCount (unionList ds cities negFault fareFault) := by
  unfold setCount
  positivity

theorem unionList_card_le {ds : Dataset} (hwf : ds.WF) (cities : Option (List String))
    (negFault : String → Option String) (fareFault : Option String) :
    setCount (unionList ds cities negFault fareFault) ≤ (ds.nRows : Int) := by
  unfold setCount
  have hsub : (unionList ds cities negFault fareFault).toFinset ⊆ Finset.range ds.nRows := by
    intro x hx
    rw [List.mem_toFinset] at hx
    rw [Finset.mem_range]
    unfold unionList at hx
    simp only [List.mem_append] at hx
    rcases hx with ((((h | h) | h) | h) | h)
    · exact type_idx_lt hwf x h
    · exact null_idx_lt hwf x h
    · exact neg_idx_lt hwf negFault x h
    · exact city_idx_lt hwf cities x h
    · exact fare_idx_lt hwf fareFault x h
  have hcard := Finset.card_le_card hsub
  rw [Finset.card_range] at hcard
  exact_mod_cast hcard

/-! ## C2: report invariants -/

theorem validity_percentage_bounds (r : ValidationReport)
    (h0 : 0 ≤ r.invalid_records) (h1 : r.invalid_records ≤ r.total_records)
    (hv : r.valid_records = r.total_records - r.invalid_records) :
    0 ≤ validity_percentage r ∧ validity_percentage r ≤ 100 := by
  unfold validity_percentage
  split
  · rename_i hpos
    rw [qmul_eq, qdiv_eq]
    have hm : ∀ n : Int, mkRat n 1 = (n : Rat) := by
      intro n
      rw [Rat.mkRat_eq_div]
      norm_num
    rw [hm, hm, hm]
    have htR : (0 : Rat) < (r.total_records : Rat) := by exact_mod_cast hpos
    have hvR0 : (0 : Rat) ≤ (r.valid_records : Rat) := by
      have hvi : (0 : Int) ≤ r.valid_records := by omega
      exact_mod_cast hvi
    have hvRt : (r.valid_records : Rat) ≤ (r.total_records : Rat) := by
      have hvi : r.valid_records ≤ r.total_records := by omega
      exact_mod_cast hvi
    constructor
    · have := div_nonneg hvR0 (le_of_lt htR)
      apply mul_nonneg this
      norm_num
    · have hq : (r.valid_records : Rat) / (r.total_records : Rat) ≤ 1 := by
        rw [div_le_one htR]
        exact hvRt
      calc (r.valid_records : Rat) / (r.total_records : Rat) * 100
          ≤ 1 * 100 := by
            apply mul_le_mul_of_nonneg_right hq
            norm_num
        _ = 100 := by norm_num
  · exact ⟨le_refl 0, by norm_num⟩

/-- C2: every report of a fault-free `validate_data_quality` run satisfies
`valid_records + invalid_records = total_records` and
`0 ≤ validity_percentage ≤ 100`, with percentage 0 on an empty frame; and
when the required columns are present, `invalid_records` is the cardinality
of the union of the row indices flagged by the type, null, negative, city and
fare-consistency checks — a set, so no index counts twice. -/
theorem C2_report_invariants (ds : Dataset) (cities : Option (List String)) (hwf : ds.WF) :
    (validate_data_quality ds cities noFault none).valid_records +
        (validate_data_quality ds cities noFault none).invalid_records =
      (validate_data_quality ds cities noFault none).total_records ∧
    0 ≤ validity_percentage (validate_data_quality ds cities noFault none) ∧
    validity_percentage (validate_data_quality ds cities noFault none) ≤ 100 ∧
    ((validate_data_quality ds cities noFault none).total_records = 0 →
      validity_percentage (validate_data_quality ds cities noFault none) = 0) ∧
    ((missingRequired ds).isEmpty = true →
      (validate_data_quality ds cities noFault none).invalid_records =
        setCount (unionList ds cities noFault none)) := by
  by_cases hreq : (missingRequired ds).isEmpty = true
  · have hrc : ¬ ((validate_required_columns ds).1 = false) := by
      simp [validate_required_columns, hreq]
    unfold validate_data_quality
    rw [if_neg hrc]
    refine ⟨by dsimp only; omega, ?_, ?_, ?_, by intro _; rfl⟩
    · exact (validity_percentage_bounds _ (unionList_nonneg ds cities noFault none)
        (unionList_card_le hwf cities noFault none) rfl).1
    · exact (validity_percentage_bounds _ (unionList_nonneg ds cities noFault none)
        (unionList_card_le hwf cities noFault none) rfl).2
    · intro h0
      dsimp only at h0
      simp [validity_percentage, h0]
  · have hrc : ((validate_required_columns ds).1 = false) := by
      simp [validate_required_columns, hreq]
    unfold validate_data_quality
    rw [if_pos hrc]
    refine ⟨by dsimp only; omega, ?_, ?_, ?_, by intro h; exact absurd h hreq⟩
    · refine (validity_percentage_bounds _ ?_ ?_ ?_).1 <;> dsimp only <;> omega
    · refine (validity_percentage_bounds _ ?_ ?_ ?_).2 <;> dsimp only <;> omega
    · intro h0
      dsimp only at h0
      simp [validity_percentage, h0]

/-- Witness for C2 at a concrete frame and whitelist. -/
theorem C2_report_invariants_witness :
    sampleClean.WF ∧
    ((validate_data_quality sampleClean (some ["dac", "cgp"]) noFault none).valid_records +
        (validate_data_quality sampleClean (some ["dac", "cgp"]) noFault none).invalid_records =
      (validate_data_quality sampleClean (some ["dac", "cgp"]) noFault none).total_records ∧
    0 ≤ validity_percentage (validate_data_quality sampleClean (some ["dac", "cgp"]) noFault none) ∧
    validity_percentage (validate_data_quality sampleClean (some ["dac", "cgp"]) noFault none)
      ≤ 100 ∧
    ((validate_data_quality sampleClean (some ["dac", "cgp"]) noFault none).total_records = 0 →
      validity_percentage (validate_data_quality sampleClean (some ["dac", "cgp"]) noFault none)
        = 0) ∧
    ((missingRequired sampleClean).isEmpty = true →
      (validate_data_quality sampleClean (some ["dac", "cgp"]) noFault none).invalid_records =
        setCount (unionList sampleClean (some ["dac", "cgp"]) noFault none))) :=
  ⟨by decide, C2_report_invariants sampleClean (some ["dac", "cgp"]) (by decide)⟩

/-! ## C4: resilience of the checks to internal failures -/

theorem check_fare_consistency_fault (ds : Dataset) (msg : String) :
    check_fare_consistency ds (some msg) = [] := by
  unfold check_fare_consistency
  split <;> rfl

/-- C4 counterexample: with the required columns present and an exception
injected into the fare-consistency check's body, the check entry reports ALL
records passed (`records_failed = 0`) and carries no error message — not
"0 passed, all failed with the message captured" as claimed.  The remaining
checks do still run. -/
theorem C4_fault_reported_as_passed_cex :
    ((validate_data_quality sampleClean none noFault (some "boom")).checks_performed.map
        (fun e => e.check_name) =
      ["Data Types", "Null Values", "Negative Values", "Valid Cities", "Fare Consistency"]) ∧
    ((validate_data_quality sampleClean none noFault (some "boom")).checks_performed.getLast? =
      some ⟨"Fare Consistency", "BUSINESS_RULE", 2, 0, none⟩) ∧
    ((validate_data_quality sampleClean none noFault (some "boom")).total_records = 2) ∧
    ¬ ((validate_data_quality sampleClean none noFault (some "boom")).checks_performed.any
        (fun e => e.check_name == "Fare Consistency" && e.records_passed == 0 &&
          e.records_failed == 2 && e.error_message.isSome) = true) := by
  refine ⟨by decide, by decide, by decide, by decide⟩

/-- C4 (amended): only the negative-value and fare-consistency checks guard
against internal failures, and a caught failure is reported as a clean pass:
under any fault environment for the guarded checks, all five checks still
run and are reported in order; a raise inside the fare-consistency check
yields a `Fare Consistency` entry with ALL records passed and no error
message; a fare column whose negative-value processing raises contributes no
flagged entry; and the entries of the unguarded checks (types, nulls,
cities) are exactly those of the fault-free run. -/
theorem C4_guarded_checks_amended (ds : Dataset) (cities : Option (List String))
    (negFault : String → Option String) (msg : String)
    (hreq : (missingRequired ds).isEmpty = true) :
    ((validate_data_quality ds cities negFault (some msg)).checks_performed.map
        (fun e => e.check_name) =
      ["Data Types", "Null Values", "Negative Values", "Valid Cities", "Fare Consistency"]) ∧
    ((validate_data_quality ds cities negFault (some msg)).checks_performed.getLast? =
      some ⟨"Fare Consistency", "BUSINESS_RULE", (ds.nRows : Int), 0, none⟩) ∧
    (∀ c m, negFault c = some m →
      (check_negative_values ds negFault).find? (fun p => p.1 == c) = none) ∧
    ((validate_data_quality ds cities negFault (some msg)).checks_performed.take 2 =
      (validate_data_quality ds cities noFault none).checks_performed.take 2) ∧
    ((validate_data_quality ds cities negFault (some msg)).checks_performed[3]? =
      (validate_data_quality ds cities noFault none).checks_performed[3]?) := by
  have hrc : ¬ ((validate_required_columns ds).1 = false) := by
    simp [validate_required_columns, hreq]
  refine ⟨?_, ?_, ?_, ?_, ?_⟩
  · unfold validate_data_quality
    rw [if_neg hrc]
    rfl
  · unfold validate_data_quality
    rw [if_neg hrc]
    dsimp only
    rw [check_fare_consistency_fault]
    simp
  · intro c m hc
    rw [List.find?_eq_none]
    intro entry hentry
    unfold check_negative_values at hentry
    rw [List.mem_filterMap] at hentry
    obtain ⟨c2, hc2, hpe⟩ := hentry
    split at hpe
    · split at hpe
      · simp at hpe
      · rename_i hcol hfc2
        split at hpe
        · simp at hpe
        · have he : entry = (c2, idxWhere (ds.getColD c2) negPred) :=
            (Option.some_injective _ hpe).symm
          intro hbeq
          rw [he] at hbeq
          simp only [beq_iff_eq] at hbeq
          rw [hbeq] at hfc2
          rw [hfc2] at hc
          exact Option.noConfusion hc
    · simp at hpe
  · unfold validate_data_quality
    rw [if_neg hrc, if_neg hrc]
    rfl
  · unfold validate_data_quality
    rw [if_neg hrc, if_neg hrc]
    rfl

/-- Witness for C4's amended statement at a concrete frame and faults. -/
theorem C4_guarded_checks_amended_witness :
    ((missingRequired sampleClean).isEmpty = true) ∧
    (((validate_data_quality sampleClean none
        (fun c => if c = "base_fare" then some "neg boom" else none)
        (some "boom")).checks_performed.map (fun e => e.check_name) =
      ["Data Types", "Null Values", "Negative Values", "Valid Cities", "Fare Consistency"]) ∧
    ((validate_data_quality sampleClean none
        (fun c => if c = "base_fare" then some "neg boom" else none)
        (some "boom")).checks_performed.getLast? =
      some ⟨"Fare Consistency", "BUSINESS_RULE", (sampleClean.nRows : Int), 0, none⟩) ∧
    (∀ c m, (fun c => if c = "base_fare" then some "neg boom" else none) c = some m →
      (check_negative_values sampleClean
        (fun c => if c = "base_fare" then some "neg boom" else none)).find?
          (fun p => p.1 == c) = none) ∧
    ((validate_data_quality sampleClean none
        (fun c => if c = "base_fare" then some "neg boom" else none)
        (some "boom")).checks_performed.take 2 =
      (validate_data_quality sampleClean none noFault none).checks_performed.take 2) ∧
    ((validate_data_quality sampleClean none
        (fun c => if c = "base_fare" then some "neg boom" else none)
        (some "boom")).checks_performed[3]? =
      (validate_data_quality sampleClean none noFault none).checks_performed[3]?)) :=
  ⟨by decide,
   C4_guarded_checks_amended sampleClean none
     (fun c => if c = "base_fare" then some "neg boom" else none) "boom" (by decide)⟩

/-! ## Column access through the frame combinators -/

theorem getCol_mapCols (ds : Dataset) (f : String → List Value → List Value) (c : String) :
    (ds.mapCols f).getCol c = (ds.getCol c).map (f c) := by
  unfold Dataset.mapCols Dataset.getCol
  induction ds.cols with
  | nil => rfl
  | cons p ps ih =>
    simp only [List.map_cons, List.find?_cons]
    by_cases h : (p.1 == c) = true
    · have hc : p.1 = c := by simpa using h
      simp only [h]
      subst hc
      rfl
    · have h' : (p.1 == c) = false := by simpa using h
      simp only [h']
      exact ih

theorem getCol_addCol_ne (ds : Dataset) (c c2 : String) (vs : List Value) (h : (c2 == c) = false) :
    (ds.addCol c vs).getCol c2 = ds.getCol c2 := by
  unfold Dataset.addCol Dataset.getCol
  rw [List.find?_append]
  have hnone : List.find? (fun p => p.1 == c2) [(c, vs)] = none := by
    simp only [List.find?_cons]
    have h2 : c2 ≠ c := by simpa using h
    have hcc : ((c, vs).1 == c2) = false := by
      rw [beq_eq_false_iff_ne]
      exact fun hc => h2 hc.symm
    simp [hcc]
  rw [hnone]
  cases ds.cols.find? (fun p => p.1 == c2) <;> rfl

theorem getCol_addCol_self (ds : Dataset) (c : String) (vs : List Value)
    (h : ds.hasCol c = false) : (ds.addCol c vs).getCol c = some vs := by
  unfold Dataset.addCol Dataset.getCol
  rw [List.find?_append]
  have hfind : ds.cols.find? (fun p => p.1 == c) = none := by
    unfold Dataset.hasCol Dataset.getCol at h
    cases hf : ds.cols.find? (fun p => p.1 == c) with
    | none => rfl
    | some q => rw [hf] at h; simp at h
  rw [hfind]
  simp [List.find?_cons]

theorem getCol_setCol_self (ds : Dataset) (c : String) (vs : List Value) :
    (ds.setCol c vs).getCol c = some vs := by
  unfold Dataset.setCol
  by_cases h : ds.hasCol c = true
  · rw [if_pos h]
    rw [getCol_mapCols]
    unfold Dataset.hasCol at h
    obtain ⟨old, hold⟩ := Option.isSome_iff_exists.mp h
    rw [hold]
    simp only [Option.map_some, beq_self_eq_true, if_true]
    rfl
  · have h' : ds.hasCol c = false := by simpa using h
    rw [if_neg (by simp [h'])]
    exact getCol_addCol_self ds c vs h'

theorem getCol_setCol_ne (ds : Dataset) (c c2 : String) (vs : List Value)
    (h : (c2 == c) = false) : (ds.setCol c vs).getCol c2 = ds.getCol c2 := by
  unfold Dataset.setCol
  by_cases hc : ds.hasCol c = true
  · rw [if_pos hc, getCol_mapCols]
    cases hg : ds.getCol c2 with
    | none => rfl
    | some old =>
      simp [h]
  · rw [if_neg hc]
    exact getCol_addCol_ne ds c c2 vs h

/-- `getD` of a mapped list at an in-range position. -/
theorem getD_map_of_lt (f : α → β) (l : List α) (i : Nat) (da : α) (db : β)
    (h : i < l.length) : (l.map f).getD i db = f (l.getD i da) := by
  induction l generalizing i with
  | nil => simp at h
  | cons x xs ih =>
    cases i with
    | zero => rfl
    | succ j => exact ih j (by simpa using h)

/-- `getD` of a zipped list at an in-range position. -/
theorem getD_zipWith_of_lt (f : α → β → γ) (a : List α) (b : List β) (i : Nat)
    (da : α) (db : β) (dc : γ) (ha : i < a.length) (hb : i < b.length) :
    (List.zipWith f a b).getD i dc = f (a.getD i da) (b.getD i db) := by
  induction a generalizing b i with
  | nil => simp at ha
  | cons x xs ih =>
    cases b with
    | nil => simp at hb
    | cons y ys =>
      cases i with
      | zero => rfl
      | succ j => exact ih ys j (by simpa using ha) (by simpa using hb)

theorem getD_replicate_of_lt (n : Nat) (v d : α) (i : Nat) (h : i < n) :
    (List.replicate n v).getD i d = v := by
  induction n generalizing i with
  | zero => simp at h
  | succ m ih =>
    cases i with
    | zero => rfl
    | succ j => exact ih j (by omega)

/-! ## Column equations for the transformation steps -/

theorem getCol_addLoadedTimestamp (ds : Dataset) (now : String) (c : String)
    (h : (c == "loaded_timestamp") = false) :
    (addLoadedTimestamp ds now).getCol c = ds.getCol c := by
  unfold addLoadedTimestamp
  exact getCol_setCol_ne _ _ _ _ h

theorem getCol_addIsValid (ds : Dataset) (c : String) (h : (c == "is_valid") = false) :
    (addIsValid ds).getCol c = ds.getCol c := by
  unfold addIsValid
  split
  · rfl
  · exact getCol_setCol_ne _ _ _ _ h

theorem getCol_addSeason (ds : Dataset) (c : String) (h : (c == "season") = false) :
    (addSeason ds).getCol c = ds.getCol c := by
  unfold addSeason
  split
  · exact getCol_setCol_ne _ _ _ _ h
  · exact getCol_setCol_ne _ _ _ _ h

theorem getCol_deriveFlightDate (ds : Dataset) (dcol : Option String) (today : Nat × Nat)
    (c : String) (h : (c == "flight_date") = false) :
    (deriveFlightDate ds dcol today).getCol c = ds.getCol c := by
  unfold deriveFlightDate
  split
  · rfl
  · split
    · split
      · split
        · exact getCol_setCol_ne _ _ _ _ h
        · exact getCol_setCol_ne _ _ _ _ h
      · exact getCol_setCol_ne _ _ _ _ h
    · exact getCol_setCol_ne _ _ _ _ h

theorem getCol_normalize_nonstring (ds : Dataset) (c : String)
    (h : stringCols.contains c = false) :
    (normalizeStrings ds).getCol c = ds.getCol c := by
  unfold normalizeStrings
  rw [getCol_mapCols]
  have h2 : ¬ (c ∈ stringCols) := by simpa using h
  cases ds.getCol c with
  | none => rfl
  | some vs => simp [h2]

theorem getCol_normalize_string (ds : Dataset) (c : String)
    (h : stringCols.contains c = true) :
    (normalizeStrings ds).getCol c = (ds.getCol c).map (List.map normStr) := by
  unfold normalizeStrings
  rw [getCol_mapCols]
  have h2 : c ∈ stringCols := by simpa using h
  cases ds.getCol c with
  | none => rfl
  | some vs => simp [h2]

theorem getCol_coerce_fare (ds : Dataset) (c : String) (h : fareCols.contains c = true) :
    (coerceNumericCols ds).getCol c =
      (ds.getCol c).map (List.map (fun v => optToVal (toNumeric v))) := by
  unfold coerceNumericCols
  rw [getCol_mapCols]
  have h2 : c ∈ fareCols := by simpa using h
  cases ds.getCol c with
  | none => rfl
  | some vs => simp [h2]

theorem getCol_coerce_nonfare (ds : Dataset) (c : String) (h : fareCols.contains c = false) :
    (coerceNumericCols ds).getCol c = ds.getCol c := by
  unfold coerceNumericCols
  rw [getCol_mapCols]
  have h2 : ¬ (c ∈ fareCols) := by simpa using h
  cases ds.getCol c with
  | none => rfl
  | some vs => simp [h2]

theorem getCol_ctf_other (ds : Dataset) (c : String) (h : (c == "total_fare") = false) :
    (calculate_total_fare ds).getCol c = ds.getCol c := by
  unfold calculate_total_fare
  split
  · split
    · rw [getCol_mapCols]
      cases ds.getCol c with
      | none => rfl
      | some vs => simp [h]
    · exact getCol_addCol_ne _ _ _ _ h
  · rfl

theorem getCol_ctf_total (ds : Dataset)
    (hbx : (ds.hasCol "base_fare" && ds.hasCol "tax_surcharge") = true)
    (ht : ds.hasCol "total_fare" = true) :
    (calculate_total_fare ds).getCol "total_fare" =
      (ds.getCol "total_fare").map
        (List.zipWith totalFareCell
          (List.zipWith addOpt ((ds.getColD "base_fare").map toNumeric)
            ((ds.getColD "tax_surcharge").map toNumeric))) := by
  unfold calculate_total_fare
  rw [if_pos hbx, if_pos ht, getCol_mapCols]
  cases ds.getCol "total_fare" with
  | none => rfl
  | some vs => simp

theorem getCol_ctf_total_absent (ds : Dataset)
    (hbx : (ds.hasCol "base_fare" && ds.hasCol "tax_surcharge") = true)
    (ht : ds.hasCol "total_fare" = false) :
    (calculate_total_fare ds).getCol "total_fare" =
      some ((List.zipWith addOpt ((ds.getColD "base_fare").map toNumeric)
        ((ds.getColD "tax_surcharge").map toNumeric)).map optToVal) := by
  unfold calculate_total_fare
  rw [if_pos hbx, if_neg (by simp [ht])]
  exact getCol_addCol_self _ _ _ ht

/-! ## C1: the total-fare reconciliation invariant -/

/-- C1 counterexample: the reconciliation cannot restore
`|base + tax − total| ≤ 0.01` on every row.  In row 0 `base_fare` is the
non-numeric string `"abc"`, so the returned row has a missing `base_fare`
and `total_fare` kept at 100.  In row 1 `total_fare` is the non-numeric
string `"xyz"`: the `NaN` comparison makes the overwrite test `False`, the
string is not "missing" when the fill runs, and the later numeric coercion
turns it into a missing value — so the returned row has `base_fare = 100`,
`tax_surcharge = 20` and a MISSING `total_fare` instead of 120. -/
theorem C1_reconciliation_cex :
    ((clean_and_enrich cexFares none (1, 1) "T").cellAt "base_fare" 0 = .null) ∧
    ((clean_and_enrich cexFares none (1, 1) "T").cellAt "total_fare" 0 = .num 100) ∧
    ((clean_and_enrich cexFares none (1, 1) "T").cellAt "base_fare" 1 = .num 100) ∧
    ((clean_and_enrich cexFares none (1, 1) "T").cellAt "tax_surcharge" 1 = .num 20) ∧
    ((clean_and_enrich cexFares none (1, 1) "T").cellAt "total_fare" 1 = .null) := by
  refine ⟨by decide, by decide, by decide, by decide, by decide⟩

/-- C1 (amended): for every well-formed frame with `base_fare` and
`tax_surcharge` columns, and every row whose `base_fare` and `tax_surcharge`
coerce to numbers and whose `total_fare` (when that column is present) is
either missing or numeric, the transformed row carries those numbers and a
numeric `total_fare` within 0.01 of their sum: a total off by more than 0.01
is overwritten with the sum, a missing one is filled with it, and an absent
column is created from it. -/
theorem C1_total_fare_amended (ds : Dataset) (dcol : Option String) (today : Nat × Nat)
    (now : String) (hwf : ds.WF)
    (hb : ds.hasCol "base_fare" = true) (hx : ds.hasCol "tax_surcharge" = true)
    (i : Nat) (hi : i < ds.nRows) (bq xq : Rat)
    (hbq : toNumeric (ds.cellAt "base_fare" i) = some bq)
    (hxq : toNumeric (ds.cellAt "tax_surcharge" i) = some xq)
    (htot : ds.hasCol "total_fare" = true →
      ds.cellAt "total_fare" i = .null ∨ (toNumeric (ds.cellAt "total_fare" i)).isSome = true) :
    (clean_and_enrich ds dcol today now).cellAt "base_fare" i = .num bq ∧
    (clean_and_enrich ds dcol today now).cellAt "tax_surcharge" i = .num xq ∧
    ∃ t : Rat, (clean_and_enrich ds dcol today now).cellAt "total_fare" i = .num t ∧
      |bq + xq - t| ≤ 1/100 := by
  have hbx : (ds.hasCol "base_fare" && ds.hasCol "tax_surcharge") = true := by
    rw [hb, hx]
    rfl
  obtain ⟨baseL, hbase⟩ := Option.isSome_iff_exists.mp hb
  obtain ⟨taxL, htax⟩ := Option.isSome_iff_exists.mp hx
  have hbaseD : ds.getColD "base_fare" = baseL := by
    unfold Dataset.getColD
    rw [hbase]
    rfl
  have htaxD : ds.getColD "tax_surcharge" = taxL := by
    unfold Dataset.getColD
    rw [htax]
    rfl
  have hblen : baseL.length = ds.nRows := by
    have := length_getColD hwf hb
    rwa [hbaseD] at this
  have hxlen : taxL.length = ds.nRows := by
    have := length_getColD hwf hx
    rwa [htaxD] at this
  have hcellb : ds.cellAt "base_fare" i = baseL.getD i .null := by
    unfold Dataset.cellAt
    rw [hbaseD]
  have hcellx : ds.cellAt "tax_surcharge" i = taxL.getD i .null := by
    unfold Dataset.cellAt
    rw [htaxD]
  -- the base + tax Series
  have hbt : (List.zipWith addOpt (baseL.map toNumeric) (taxL.map toNumeric)).getD i none =
      some (qadd bq xq) := by
    rw [getD_zipWith_of_lt addOpt (baseL.map toNumeric) (taxL.map toNumeric) i none none none
      (by rw [List.length_map, hblen]; exact hi) (by rw [List.length_map, hxlen]; exact hi)]
    rw [getD_map_of_lt toNumeric baseL i .null none (by rw [hblen]; exact hi)]
    rw [getD_map_of_lt toNumeric taxL i .null none (by rw [hxlen]; exact hi)]
    rw [← hcellb, ← hcellx, hbq, hxq]
    rfl
  have hbtlen : (List.zipWith addOpt (baseL.map toNumeric) (taxL.map toNumeric)).length
      = ds.nRows := by
    rw [List.length_zipWith, List.length_map, List.length_map, hblen, hxlen]
    omega
  -- output base_fare and tax_surcharge columns
  have houtb : (clean_and_enrich ds dcol today now).getCol "base_fare" =
      (ds.getCol "base_fare").map (List.map (fun v => optToVal (toNumeric v))) := by
    unfold clean_and_enrich
    rw [getCol_addLoadedTimestamp _ _ _ (by decide), getCol_addIsValid _ _ (by decide),
      getCol_addSeason _ _ (by decide), getCol_deriveFlightDate _ _ _ _ (by decide),
      getCol_coerce_fare _ _ (by decide), getCol_normalize_nonstring _ _ (by decide),
      getCol_ctf_other _ _ (by decide)]
  have houtx : (clean_and_enrich ds dcol today now).getCol "tax_surcharge" =
      (ds.getCol "tax_surcharge").map (List.map (fun v => optToVal (toNumeric v))) := by
    unfold clean_and_enrich
    rw [getCol_addLoadedTimestamp _ _ _ (by decide), getCol_addIsValid _ _ (by decide),
      getCol_addSeason _ _ (by decide), getCol_deriveFlightDate _ _ _ _ (by decide),
      getCol_coerce_fare _ _ (by decide), getCol_normalize_nonstring _ _ (by decide),
      getCol_ctf_other _ _ (by decide)]
  refine ⟨?_, ?_, ?_⟩
  · unfold Dataset.cellAt Dataset.getColD
    rw [houtb, hbase]
    show (baseL.map (fun v => optToVal (toNumeric v))).getD i .null = .num bq
    rw [getD_map_of_lt (fun v => optToVal (toNumeric v)) baseL i .null .null
      (by rw [hblen]; exact hi)]
    rw [← hcellb, hbq]
    rfl
  · unfold Dataset.cellAt Dataset.getColD
    rw [houtx, htax]
    show (taxL.map (fun v => optToVal (toNumeric v))).getD i .null = .num xq
    rw [getD_map_of_lt (fun v => optToVal (toNumeric v)) taxL i .null .null
      (by rw [hxlen]; exact hi)]
    rw [← hcellx, hxq]
    rfl
  · by_cases ht : ds.hasCol "total_fare" = true
    · obtain ⟨totL, htotL⟩ := Option.isSome_iff_exists.mp ht
      have htotD : ds.getColD "total_fare" = totL := by
        unfold Dataset.getColD
        rw [htotL]
        rfl
      have htlen : totL.length = ds.nRows := by
        have := length_getColD hwf ht
        rwa [htotD] at this
      have hcellt : ds.cellAt "total_fare" i = totL.getD i .null := by
        unfold Dataset.cellAt
        rw [htotD]
      have houtt : (clean_and_enrich ds dcol today now).getCol "total_fare" =
          ((ds.getCol "total_fare").map
            (List.zipWith totalFareCell
              (List.zipWith addOpt (baseL.map toNumeric) (taxL.map toNumeric)))).map
            (List.map (fun v => optToVal (toNumeric v))) := by
        unfold clean_and_enrich
        rw [getCol_addLoadedTimestamp _ _ _ (by decide), getCol_addIsValid _ _ (by decide),
          getCol_addSeason _ _ (by decide), getCol_deriveFlightDate _ _ _ _ (by decide),
          getCol_coerce_fare _ _ (by decide), getCol_normalize_nonstring _ _ (by decide),
          getCol_ctf_total ds hbx ht, hbaseD, htaxD]
      have hcellout : (clean_and_enrich ds dcol today now).cellAt "total_fare" i =
          optToVal (toNumeric (totalFareCell
            ((List.zipWith addOpt (baseL.map toNumeric) (taxL.map toNumeric)).getD i none)
            (totL.getD i .null))) := by
        unfold Dataset.cellAt Dataset.getColD
        rw [houtt, htotL]
        show ((List.zipWith totalFareCell
            (List.zipWith addOpt (baseL.map toNumeric) (taxL.map toNumeric)) totL).map
          (fun v => optToVal (toNumeric v))).getD i .null = _
        rw [getD_map_of_lt (fun v => optToVal (toNumeric v))
          (List.zipWith totalFareCell
            (List.zipWith addOpt (baseL.map toNumeric) (taxL.map toNumeric)) totL) i .null .null
          (by rw [List.length_zipWith, hbtlen, htlen]; omega)]
        rw [getD_zipWith_of_lt totalFareCell
          (List.zipWith addOpt (baseL.map toNumeric) (taxL.map toNumeric)) totL i none
          .null .null (by rw [hbtlen]; exact hi) (by rw [htlen]; exact hi)]
      rw [hcellout, hbt]
      rcases htot ht with hnull | hsome
      · rw [hcellt] at hnull
        rw [hnull]
        refine ⟨qadd bq xq, ?_, ?_⟩
        · rfl
        · rw [qadd_eq]
          simp
      · obtain ⟨tq, htq⟩ := Option.isSome_iff_exists.mp hsome
        rw [hcellt] at htq
        have htnotnull : totL.getD i .null ≠ .null := by
          intro hcon
          rw [hcon] at htq
          exact Option.noConfusion htq
        unfold totalFareCell
        by_cases hinc : fareIncorrect (some (qadd bq xq)) (toNumeric (totL.getD i .null)) = true
        · rw [if_pos hinc]
          refine ⟨qadd bq xq, by rfl, ?_⟩
          rw [qadd_eq]
          simp
        · rw [if_neg hinc]
          have hisna : isna (totL.getD i .null) = false := by
            cases hv : totL.getD i .null with
            | null => exact absurd hv htnotnull
            | num q => rfl
            | str s => rfl
            | boolV b => rfl
            | dateV m d => rfl
          rw [if_neg (by rw [hisna]; exact Bool.false_ne_true)]
          refine ⟨tq, ?_, ?_⟩
          · rw [htq]
            rfl
          · unfold fareIncorrect at hinc
            rw [htq] at hinc
            simp only [decide_eq_true_eq] at hinc
            rw [qabs_eq, qsub_eq, qadd_eq] at hinc
            push_neg at hinc
            have hmk : (mkRat 1 100 : ℚ) = 1 / 100 := by
              rw [Rat.mkRat_eq_div]; norm_num
            rw [hmk] at hinc
            exact hinc
    · have ht' : ds.hasCol "total_fare" = false := by simpa using ht
      have houtt : (clean_and_enrich ds dcol today now).getCol "total_fare" =
          some (((List.zipWith addOpt (baseL.map toNumeric) (taxL.map toNumeric)).map
            optToVal).map (fun v => optToVal (toNumeric v))) := by
        unfold clean_and_enrich
        rw [getCol_addLoadedTimestamp _ _ _ (by decide), getCol_addIsValid _ _ (by decide),
          getCol_addSeason _ _ (by decide), getCol_deriveFlightDate _ _ _ _ (by decide),
          getCol_coerce_fare _ _ (by decide), getCol_normalize_nonstring _ _ (by decide),
          getCol_ctf_total_absent ds hbx ht', hbaseD, htaxD]
        rfl
      have hcellout : (clean_and_enrich ds dcol today now).cellAt "total_fare" i =
          optToVal (toNumeric (optToVal
            ((List.zipWith addOpt (baseL.map toNumeric) (taxL.map toNumeric)).getD i none))) := by
        unfold Dataset.cellAt Dataset.getColD
        rw [houtt]
        show ((((List.zipWith addOpt (baseL.map toNumeric) (taxL.map toNumeric))).map
          optToVal).map (fun v => optToVal (toNumeric v))).getD i .null = _
        rw [getD_map_of_lt (fun v => optToVal (toNumeric v))
          ((List.zipWith addOpt (baseL.map toNumeric) (taxL.map toNumeric)).map optToVal) i
          .null .null (by rw [List.length_map, hbtlen]; exact hi)]
        rw [getD_map_of_lt optToVal
          (List.zipWith addOpt (baseL.map toNumeric) (taxL.map toNumeric)) i none .null
          (by rw [hbtlen]; exact hi)]
      rw [hcellout, hbt]
      refine ⟨qadd bq xq, by rfl, ?_⟩
      rw [qadd_eq]
      simp

/-- Witness for C1's amended statement: `sampleClean` row 0 records
`total_fare = 150` against `100 + 20`; the returned row carries 120. -/
theorem C1_total_fare_amended_witness :
    (sampleClean.WF ∧ sampleClean.hasCol "base_fare" = true ∧
      sampleClean.hasCol "tax_surcharge" = true ∧ (0 : Nat) < sampleClean.nRows ∧
      toNumeric (sampleClean.cellAt "base_fare" 0) = some 100 ∧
      toNumeric (sampleClean.cellAt "tax_surcharge" 0) = some 20) ∧
    ((clean_and_enrich sampleClean none (1, 1) "T").cellAt "base_fare" 0 = .num 100 ∧
    (clean_and_enrich sampleClean none (1, 1) "T").cellAt "tax_surcharge" 0 = .num 20 ∧
    ∃ t : Rat, (clean_and_enrich sampleClean none (1, 1) "T").cellAt "total_fare" 0 = .num t ∧
      |(100 : Rat) + 20 - t| ≤ 1/100) :=
  ⟨⟨by decide, by decide, by decide, by decide, by decide, by decide⟩,
   C1_total_fare_amended sampleClean none (1, 1) "T" (by decide) (by decide) (by decide) 0
     (by decide) 100 20 (by decide) (by decide) (by decide)⟩

/-! ## Stable insertion sort: permutation and sortedness -/

theorem mem_insBy {lt : α → α → Bool} {a x : α} {l : List α} :
    x ∈ insBy lt a l ↔ x = a ∨ x ∈ l := by
  induction l with
  | nil => simp [insBy]
  | cons b bs ih =>
    by_cases h : lt b a = true
    · rw [insBy, if_pos h]
      simp only [List.mem_cons, ih]
      tauto
    · rw [insBy, if_neg h]
      simp only [List.mem_cons]

theorem length_insBy {lt : α → α → Bool} {a : α} {l : List α} :
    (insBy lt a l).length = l.length + 1 := by
  induction l with
  | nil => rfl
  | cons b bs ih =>
    by_cases h : lt b a = true
    · rw [insBy, if_pos h]
      simp [ih]
    · rw [insBy, if_neg h]
      simp

theorem length_sortByB {lt : α → α → Bool} {l : List α} :
    (sortByB lt l).length = l.length := by
  induction l with
  | nil => rfl
  | cons b bs ih =>
    rw [sortByB, length_insBy, ih]
    rfl

theorem mem_sortByB {lt : α → α → Bool} {x : α} {l : List α} :
    x ∈ sortByB lt l ↔ x ∈ l := by
  induction l with
  | nil => simp [sortByB]
  | cons b bs ih =>
    rw [sortByB, mem_insBy, ih]
    simp

theorem pairwise_insBy {lt : α → α → Bool}
    (hasym : ∀ x y, lt x y = true → lt y x = false)
    (htrans : ∀ x y z, lt z y = false → lt y x = false → lt z x = false)
    {a : α} {l : List α} (hl : l.Pairwise (fun x y => lt y x = false)) :
    (insBy lt a l).Pairwise (fun x y => lt y x = false) := by
  induction l with
  | nil => simp [insBy]
  | cons b bs ih =>
    rcases List.pairwise_cons.mp hl with ⟨hb, hbs⟩
    by_cases h : lt b a = true
    · rw [insBy, if_pos h]
      refine List.pairwise_cons.mpr ⟨?_, ih hbs⟩
      intro x hx
      rcases mem_insBy.mp hx with rfl | hx
      · exact hasym b x h
      · exact hb x hx
    · rw [insBy, if_neg h]
      have h' : lt b a = false := by simpa using h
      refine List.pairwise_cons.mpr ⟨?_, hl⟩
      intro x hx
      rcases List.mem_cons.mp hx with rfl | hx
      · exact h'
      · exact htrans a b x (hb x hx) h'

theorem pairwise_sortByB {lt : α → α → Bool}
    (hasym : ∀ x y, lt x y = true → lt y x = false)
    (htrans : ∀ x y z, lt z y = false → lt y x = false → lt z x = false)
    (l : List α) : (sortByB lt l).Pairwise (fun x y => lt y x = false) := by
  induction l with
  | nil => simp [sortByB]
  | cons b bs ih =>
    rw [sortByB]
    exact pairwise_insBy hasym htrans ih

/-! ## C6: popular routes -/

/-- C6 counterexample: three routes, each with one booking, first appearing
in the input order C, A, B.  All booking counts tie, yet the output order is
C, B, A — the groups are formed in ascending key order and pandas reverses
the (stable) ascending argsort for a descending sort, so ties come out in
descending key order, not in stable input order. -/
theorem C6_ties_not_stable_cex :
    ((compute_popular_routes cexRoutes 10).map (fun r => (r.source, r.destination)) =
      [(.str "C", .str "C"), (.str "B", .str "B"), (.str "A", .str "A")]) ∧
    ((compute_popular_routes cexRoutes 10).all (fun r => r.booking_count == 1) = true) ∧
    (firstKeys ((cexRoutes.getColD "source").zip (cexRoutes.getColD "destination")) =
      [(.str "C", .str "C"), (.str "A", .str "A"), (.str "B", .str "B")]) ∧
    ((compute_popular_routes cexRoutes 10).map (fun r => (r.source, r.destination)) ≠
      firstKeys ((cexRoutes.getColD "source").zip (cexRoutes.getColD "destination"))) := by
  refine ⟨by decide, by decide, by decide, by decide⟩

/-- C6 (amended): `compute_popular_routes` groups by `(source, destination)`,
sorts the groups descending by booking count, assigns ranks `1..N` in that
order and truncates to `top_n` rows; every output row carries the data of its
group and the rank-1 row carries the maximum booking count over all groups.
(Ties in booking count are NOT broken by stable input order: groups are formed
in ascending key order and the descending sort reverses a stable ascending
argsort, so ties come out in descending key order — see the counterexample.) -/
theorem C6_popular_routes_amended (ds : Dataset) (top_n : Nat) (htop : 0 < top_n) :
    List.Pairwise (fun r s => s.booking_count ≤ r.booking_count)
      (compute_popular_routes ds top_n) ∧
    (∀ i (h : i < (compute_popular_routes ds top_n).length),
      ((compute_popular_routes ds top_n).get ⟨i, h⟩).route_rank = i + 1) ∧
    ((ds.hasCol "total_fare" && ds.hasCol "source" && ds.hasCol "destination") = true →
      (compute_popular_routes ds top_n).length = min top_n (routeGroups ds).length) ∧
    ((ds.hasCol "total_fare" && ds.hasCol "source" && ds.hasCol "destination") = true →
      routeGroups ds ≠ [] → compute_popular_routes ds top_n ≠ []) ∧
    (∀ r ∈ compute_popular_routes ds top_n, ∃ g ∈ routeGroups ds,
      r.source = g.1.1 ∧ r.destination = g.1.2 ∧ r.booking_count = g.2.1) ∧
    (∀ r0, (compute_popular_routes ds top_n).head? = some r0 →
      ∀ g ∈ routeGroups ds, g.2.1 ≤ r0.booking_count) := by
  have hlenSorted : (routesSorted ds).length = (routeGroups ds).length := by
    rw [routesSorted, List.length_reverse, length_sortByB]
  have hmemSorted : ∀ {g : (Value × Value) × Nat × PFloat},
      g ∈ routesSorted ds ↔ g ∈ routeGroups ds := by
    intro g
    rw [routesSorted, List.mem_reverse, mem_sortByB]
  have hpair : (routesSorted ds).Pairwise (fun x y => y.2.1 ≤ x.2.1) := by
    have hasym : ∀ x y : (Value × Value) × Nat × PFloat,
        cntLtRoute x y = true → cntLtRoute y x = false := by
      intro x y h
      simp only [cntLtRoute, decide_eq_true_eq] at h
      simp only [cntLtRoute, decide_eq_false_iff_not]
      omega
    have htrans : ∀ x y z : (Value × Value) × Nat × PFloat,
        cntLtRoute z y = false → cntLtRoute y x = false → cntLtRoute z x = false := by
      intro x y z h1 h2
      simp only [cntLtRoute, decide_eq_false_iff_not] at h1 h2 ⊢
      omega
    have h1 := pairwise_sortByB hasym htrans (routeGroups ds)
    rw [routesSorted]
    refine (List.pairwise_reverse.mpr h1).imp ?_
    intro x y hxy
    simp only [cntLtRoute, decide_eq_false_iff_not] at hxy
    omega
  by_cases hcols : (ds.hasCol "total_fare" && ds.hasCol "source" && ds.hasCol "destination") = true
  · have hout : compute_popular_routes ds top_n =
        ((routesSorted ds).enum.map rankRoute).take top_n := by
      unfold compute_popular_routes
      rw [if_pos hcols]
    have hlen : ∀ {i : Nat}, i < (compute_popular_routes ds top_n).length →
        i < (routesSorted ds).length := by
      intro i hi
      rw [hout] at hi
      simp only [List.length_take, List.length_map, List.enum_length] at hi
      omega
    have hElem : ∀ i (h : i < (compute_popular_routes ds top_n).length),
        (compute_popular_routes ds top_n).get ⟨i, h⟩ =
          rankRoute (i, (routesSorted ds).get ⟨i, hlen h⟩) := by
      intro i h
      rw [List.get_eq_getElem]
      rw [List.getElem_of_eq hout h]
      simp only [List.getElem_take, List.getElem_map, List.getElem_enum, List.get_eq_getElem]
    refine ⟨?_, ?_, ?_, ?_, ?_, ?_⟩
    · rw [List.pairwise_iff_getElem]
      intro i j hi hj hij
      have hgi := hElem i hi
      have hgj := hElem j hj
      simp only [List.get_eq_getElem] at hgi hgj
      rw [hgi, hgj]
      have hp := List.pairwise_iff_getElem.mp hpair i j (hlen hi) (hlen hj) hij
      simpa [rankRoute] using hp
    · intro i h
      rw [hElem i h]
      rfl
    · intro _
      rw [hout]
      simp [List.length_take, List.enum_length, hlenSorted]
    · intro _ hG hEmpty
      rw [hout] at hEmpty
      have hlen0 := congrArg List.length hEmpty
      simp only [List.length_take, List.length_map, List.enum_length, hlenSorted,
        List.length_nil] at hlen0
      have hzero : (routeGroups ds).length = 0 := by omega
      exact hG (List.eq_nil_of_length_eq_zero hzero)
    · intro r hr
      rw [List.mem_iff_getElem] at hr
      obtain ⟨i, hi, hri⟩ := hr
      have hg := hElem i hi
      have hgel : (routesSorted ds).get ⟨i, hlen hi⟩ ∈ routeGroups ds := by
        rw [← hmemSorted, List.get_eq_getElem]
        exact List.getElem_mem (hlen hi)
      refine ⟨_, hgel, ?_⟩
      rw [List.get_eq_getElem] at hg
      rw [← hri, hg]
      exact ⟨rfl, rfl, rfl⟩
    · intro r0 h0 g hgmem
      have hne : 0 < (compute_popular_routes ds top_n).length := by
        by_contra hc
        have hnil : (compute_popular_routes ds top_n) = [] := by
          cases hx : compute_popular_routes ds top_n with
          | nil => rfl
          | cons y ys => rw [hx] at hc; simp at hc
        rw [hnil] at h0
        simp at h0
      have hr0 : r0 = (compute_popular_routes ds top_n).get ⟨0, hne⟩ := by
        rw [List.head?_eq_getElem?, List.getElem?_eq_getElem hne] at h0
        simp only [List.get_eq_getElem]
        simpa using h0.symm
      have hg0 := hElem 0 hne
      have hgs : g ∈ routesSorted ds := hmemSorted.mpr hgmem
      rw [List.mem_iff_getElem] at hgs
      obtain ⟨j, hj, hgj⟩ := hgs
      rw [hr0, hg0]
      have hbk : (rankRoute (0, (routesSorted ds).get ⟨0, hlen hne⟩)).booking_count =
          ((routesSorted ds).get ⟨0, hlen hne⟩).2.1 := rfl
      rw [hbk, List.get_eq_getElem]
      rcases Nat.eq_zero_or_pos j with rfl | hjpos
      · rw [← hgj]
      · have hpw := List.pairwise_iff_getElem.mp hpair 0 j (hlen hne) hj hjpos
        rw [← hgj]
        exact hpw
  · have hout : compute_popular_routes ds top_n = [] := by
      unfold compute_popular_routes
      rw [if_neg hcols]
    refine ⟨?_, ?_, ?_, ?_, ?_, ?_⟩
    · rw [hout]
      exact List.Pairwise.nil
    · intro i h
      rw [hout] at h
      simp at h
    · intro hc
      exact absurd hc hcols
    · intro hc _
      exact absurd hc hcols
    · intro r hr
      rw [hout] at hr
      simp at hr
    · intro r0 h0
      rw [hout] at h0
      simp at h0

/-- Witness for C6 at a concrete frame and limit. -/
theorem C6_popular_routes_amended_witness :
    (0 < 10) ∧
    (List.Pairwise (fun r s => s.booking_count ≤ r.booking_count)
      (compute_popular_routes cexRoutes 10) ∧
    (∀ i (h : i < (compute_popular_routes cexRoutes 10).length),
      ((compute_popular_routes cexRoutes 10).get ⟨i, h⟩).route_rank = i + 1) ∧
    ((cexRoutes.hasCol "total_fare" && cexRoutes.hasCol "source" &&
        cexRoutes.hasCol "destination") = true →
      (compute_popular_routes cexRoutes 10).length = min 10 (routeGroups cexRoutes).length) ∧
    ((cexRoutes.hasCol "total_fare" && cexRoutes.hasCol "source" &&
        cexRoutes.hasCol "destination") = true →
      routeGroups cexRoutes ≠ [] → compute_popular_routes cexRoutes 10 ≠ []) ∧
    (∀ r ∈ compute_popular_routes cexRoutes 10, ∃ g ∈ routeGroups cexRoutes,
      r.source = g.1.1 ∧ r.destination = g.1.2 ∧ r.booking_count = g.2.1) ∧
    (∀ r0, (compute_popular_routes cexRoutes 10).head? = some r0 →
      ∀ g ∈ routeGroups cexRoutes, g.2.1 ≤ r0.booking_count)) :=
  ⟨by decide, C6_popular_routes_amended cexRoutes 10 (by decide)⟩

/-- C7: a frame missing any required column makes `validate_data_quality`
report every record invalid with a single `Required Columns` check entry
(0 passed, all failed, message recorded) and perform no further check —
whatever the whitelist or the fault environment. -/
theorem C7_missing_required_short_circuit (ds : Dataset) (cities : Option (List String))
    (negFault : String → Option String) (fareFault : Option String)
    (h : (missingRequired ds).isEmpty = false) :
    validate_data_quality ds cities negFault fareFault =
      { total_records := (ds.nRows : Int), valid_records := 0,
        invalid_records := (ds.nRows : Int), flagged_records := 0,
        checks_performed := [⟨"Required Columns", "COLUMN_VALIDATION", 0, (ds.nRows : Int),
          some ("Missing required columns: " ++ toString (missingRequired ds))⟩] } := by
  unfold validate_data_quality validate_required_columns
  simp [h]

/-- Witness for C7: a frame lacking `total_fare`. -/
theorem C7_missing_required_witness :
    ((missingRequired noTotalCol).isEmpty = false) ∧
    validate_data_quality noTotalCol none noFault none =
      { total_records := 1, valid_records := 0, invalid_records := 1, flagged_records := 0,
        checks_performed := [⟨"Required Columns", "COLUMN_VALIDATION", 0, 1,
          some "Missing required columns: [total_fare]"⟩] } :=
  ⟨by decide,
   by
    rw [C7_missing_required_short_circuit noTotalCol none noFault none (by decide)]
    decide⟩

/-! ## C8 groundwork: character facts for the string cleaning -/

theorem toNat_ofNat (n : Nat) (h : n.isValidChar) : (Char.ofNat n).toNat = n := by
  unfold Char.ofNat
  rw [dif_pos h]
  rfl

theorem char_toNat_valid (c : Char) : c.toNat.isValidChar := by
  have h := c.valid
  unfold UInt32.isValidChar at h
  exact h

theorem toNat_lowChar (c : Char) : (lowChar c).toNat = lowCode c.toNat := by
  unfold lowChar
  apply toNat_ofNat
  unfold lowCode
  by_cases h : 65 ≤ c.toNat ∧ c.toNat ≤ 90
  · rw [if_pos h]
    exact Or.inl (by omega)
  · rw [if_neg h]
    exact char_toNat_valid c

theorem toNat_upChar (c : Char) : (upChar c).toNat = upCode c.toNat := by
  unfold upChar
  apply toNat_ofNat
  unfold upCode
  by_cases h : 97 ≤ c.toNat ∧ c.toNat ≤ 122
  · rw [if_pos h]
    exact Or.inl (by omega)
  · rw [if_neg h]
    exact char_toNat_valid c

theorem lowCode_lowCode (n : Nat) : lowCode (lowCode n) = lowCode n := by
  unfold lowCode
  by_cases h : 65 ≤ n ∧ n ≤ 90
  · rw [if_pos h, if_neg (by omega)]
  · rw [if_neg h, if_neg h]

theorem upCode_upCode (n : Nat) : upCode (upCode n) = upCode n := by
  unfold upCode
  by_cases h : 97 ≤ n ∧ n ≤ 122
  · rw [if_pos h, if_neg (by omega)]
  · rw [if_neg h, if_neg h]

theorem isAlphaCode_lowCode (n : Nat) : isAlphaCode (lowCode n) = isAlphaCode n := by
  unfold isAlphaCode lowCode
  by_cases h : 65 ≤ n ∧ n ≤ 90
  · rw [if_pos h, Bool.eq_iff_iff]
    simp only [Bool.or_eq_true, Bool.and_eq_true, decide_eq_true_eq]
    omega
  · rw [if_neg h]

theorem isAlphaCode_upCode (n : Nat) : isAlphaCode (upCode n) = isAlphaCode n := by
  unfold isAlphaCode upCode
  by_cases h : 97 ≤ n ∧ n ≤ 122
  · rw [if_pos h, Bool.eq_iff_iff]
    simp only [Bool.or_eq_true, Bool.and_eq_true, decide_eq_true_eq]
    omega
  · rw [if_neg h]

theorem isWsCode_lowCode (n : Nat) : isWsCode (lowCode n) = isWsCode n := by
  unfold isWsCode lowCode
  by_cases h : 65 ≤ n ∧ n ≤ 90
  · rw [if_pos h, Bool.eq_iff_iff]
    simp only [Bool.or_eq_true, beq_iff_eq]
    omega
  · rw [if_neg h]

theorem isWsCode_upCode (n : Nat) : isWsCode (upCode n) = isWsCode n := by
  unfold isWsCode upCode
  by_cases h : 97 ≤ n ∧ n ≤ 122
  · rw [if_pos h, Bool.eq_iff_iff]
    simp only [Bool.or_eq_true, beq_iff_eq]
    omega
  · rw [if_neg h]

theorem lowChar_lowChar (c : Char) : lowChar (lowChar c) = lowChar c :=
  calc lowChar (lowChar c) = Char.ofNat (lowCode ((lowChar c).toNat)) := rfl
    _ = Char.ofNat (lowCode (lowCode c.toNat)) := by rw [toNat_lowChar]
    _ = Char.ofNat (lowCode c.toNat) := by rw [lowCode_lowCode]
    _ = lowChar c := rfl

theorem upChar_upChar (c : Char) : upChar (upChar c) = upChar c :=
  calc upChar (upChar c) = Char.ofNat (upCode ((upChar c).toNat)) := rfl
    _ = Char.ofNat (upCode (upCode c.toNat)) := by rw [toNat_upChar]
    _ = Char.ofNat (upCode c.toNat) := by rw [upCode_upCode]
    _ = upChar c := rfl

theorem caseChar_alpha_false (c : Char) (h : isAlphaCode c.toNat = true) :
    caseChar false c = upChar c := by
  unfold caseChar
  rw [if_pos h, if_neg (by simp)]

theorem caseChar_alpha_true (c : Char) (h : isAlphaCode c.toNat = true) :
    caseChar true c = lowChar c := by
  unfold caseChar
  rw [if_pos h, if_pos rfl]

theorem caseChar_nonalpha (b : Bool) (c : Char) (h : isAlphaCode c.toNat = false) :
    caseChar b c = c := by
  unfold caseChar
  rw [if_neg (by simp [h])]

theorem isAlphaCode_caseChar (b : Bool) (c : Char) :
    isAlphaCode (caseChar b c).toNat = isAlphaCode c.toNat := by
  by_cases h : isAlphaCode c.toNat = true
  · cases b
    · rw [caseChar_alpha_false c h, toNat_upChar, isAlphaCode_upCode]
    · rw [caseChar_alpha_true c h, toNat_lowChar, isAlphaCode_lowCode]
  · have h2 : isAlphaCode c.toNat = false := by simpa using h
    rw [caseChar_nonalpha b c h2]

theorem isWsChar_caseChar (b : Bool) (c : Char) : isWsChar (caseChar b c) = isWsChar c := by
  unfold isWsChar
  by_cases h : isAlphaCode c.toNat = true
  · cases b
    · rw [caseChar_alpha_false c h, toNat_upChar, isWsCode_upCode]
    · rw [caseChar_alpha_true c h, toNat_lowChar, isWsCode_lowCode]
  · have h2 : isAlphaCode c.toNat = false := by simpa using h
    rw [caseChar_nonalpha b c h2]

theorem caseChar_caseChar (b : Bool) (c : Char) : caseChar b (caseChar b c) = caseChar b c := by
  by_cases h : isAlphaCode c.toNat = true
  · cases b
    · rw [caseChar_alpha_false c h,
        caseChar_alpha_false (upChar c) (by rw [toNat_upChar, isAlphaCode_upCode]; exact h),
        upChar_upChar]
    · rw [caseChar_alpha_true c h,
        caseChar_alpha_true (lowChar c) (by rw [toNat_lowChar, isAlphaCode_lowCode]; exact h),
        lowChar_lowChar]
  · have h2 : isAlphaCode c.toNat = false := by simpa using h
    rw [caseChar_nonalpha b c h2, caseChar_nonalpha b c h2]

/-! ## C8 groundwork: idempotence of strip and title -/

theorem titleAux_idem (l : List Char) : ∀ b, titleAux b (titleAux b l) = titleAux b l := by
  induction l with
  | nil => intro b; rfl
  | cons c cs ih =>
    intro b
    show caseChar b (caseChar b c) ::
        titleAux (isAlphaCode (caseChar b c).toNat) (titleAux (isAlphaCode c.toNat) cs) =
      caseChar b c :: titleAux (isAlphaCode c.toNat) cs
    rw [caseChar_caseChar, isAlphaCode_caseChar, ih]

theorem map_isWsChar_titleAux (l : List Char) :
    ∀ b, (titleAux b l).map isWsChar = l.map isWsChar := by
  induction l with
  | nil => intro b; rfl
  | cons c cs ih =>
    intro b
    show isWsChar (caseChar b c) :: (titleAux (isAlphaCode c.toNat) cs).map isWsChar =
      isWsChar c :: cs.map isWsChar
    rw [isWsChar_caseChar, ih]

theorem dropWhile_eq_self_of_head (p : α → Bool) (l : List α)
    (h : ∀ a, l.head? = some a → p a = false) : l.dropWhile p = l := by
  cases l with
  | nil => rfl
  | cons c cs =>
    rw [List.dropWhile_cons, if_neg (by rw [h c rfl]; exact Bool.false_ne_true)]

theorem head_dropWhile_false (p : α → Bool) (l : List α) :
    ∀ a, (l.dropWhile p).head? = some a → p a = false := by
  induction l with
  | nil => intro a ha; exact Option.noConfusion ha
  | cons c cs ih =>
    intro a ha
    rw [List.dropWhile_cons] at ha
    by_cases hc : p c = true
    · rw [if_pos hc] at ha
      exact ih a ha
    · rw [if_neg hc] at ha
      simp only [List.head?_cons, Option.some.injEq] at ha
      subst ha
      simpa using hc

theorem getLast_dropWhile_or (p : α → Bool) (l : List α) :
    l.dropWhile p = [] ∨ (l.dropWhile p).getLast? = l.getLast? := by
  induction l with
  | nil => exact Or.inl rfl
  | cons c cs ih =>
    rw [List.dropWhile_cons]
    by_cases hc : p c = true
    · rw [if_pos hc]
      cases hd : cs.dropWhile p with
      | nil => exact Or.inl rfl
      | cons d ds =>
        right
        rcases ih with h | h
        · rw [hd] at h
          exact absurd h (List.cons_ne_nil d ds)
        · rw [hd] at h
          rw [h]
          cases hcs : cs with
          | nil =>
            rw [hcs] at hd
            simp at hd
          | cons e es =>
            rw [List.getLast?_cons_cons]
    · rw [if_neg hc]
      exact Or.inr rfl

theorem stripList_head_not_ws (l : List Char) :
    ∀ a, (stripList l).head? = some a → isWsChar a = false := by
  intro a ha
  unfold stripList at ha
  rw [List.head?_reverse] at ha
  rcases getLast_dropWhile_or isWsChar ((l.dropWhile isWsChar).reverse) with h | h
  · rw [h] at ha
    simp at ha
  · rw [h, List.getLast?_reverse] at ha
    exact head_dropWhile_false isWsChar _ a ha

theorem stripList_last_not_ws (l : List Char) :
    ∀ a, (stripList l).getLast? = some a → isWsChar a = false := by
  intro a ha
  unfold stripList at ha
  rw [List.getLast?_reverse] at ha
  exact head_dropWhile_false isWsChar _ a ha

theorem stripList_eq_self (l : List Char)
    (h1 : ∀ a, l.head? = some a → isWsChar a = false)
    (h2 : ∀ a, l.getLast? = some a → isWsChar a = false) :
    stripList l = l := by
  unfold stripList
  rw [dropWhile_eq_self_of_head isWsChar l h1]
  rw [dropWhile_eq_self_of_head isWsChar l.reverse (by
    intro a ha
    rw [List.head?_reverse] at ha
    exact h2 a ha)]
  exact List.reverse_reverse l

theorem title_strip_idem (l : List Char) :
    titleAux false (stripList (titleAux false (stripList l))) =
      titleAux false (stripList l) := by
  have hmap := map_isWsChar_titleAux (stripList l) false
  have hh : (titleAux false (stripList l)).head?.map isWsChar =
      (stripList l).head?.map isWsChar := by
    rw [← List.head?_map, ← List.head?_map, hmap]
  have hl : (titleAux false (stripList l)).getLast?.map isWsChar =
      (stripList l).getLast?.map isWsChar := by
    rw [← List.getLast?_map, ← List.getLast?_map, hmap]
  have hhead : ∀ a, (titleAux false (stripList l)).head? = some a → isWsChar a = false := by
    intro a ha
    rw [ha] at hh
    cases hsl : (stripList l).head? with
    | none =>
      rw [hsl] at hh
      simp at hh
    | some b =>
      rw [hsl] at hh
      have hab : isWsChar a = isWsChar b := by simpa using hh
      rw [hab]
      exact stripList_head_not_ws l b hsl
  have hlast : ∀ a, (titleAux false (stripList l)).getLast? = some a → isWsChar a = false := by
    intro a ha
    rw [ha] at hl
    cases hsl : (stripList l).getLast? with
    | none =>
      rw [hsl] at hl
      simp at hl
    | some b =>
      rw [hsl] at hl
      have hab : isWsChar a = isWsChar b := by simpa using hl
      rw [hab]
      exact stripList_last_not_ws l b hsl
  rw [stripList_eq_self _ hhead hlast]
  exact titleAux_idem (stripList l) false

theorem pyTitle_pyStrip_idem (s : String) :
    pyTitle (pyStrip (pyTitle (pyStrip s))) = pyTitle (pyStrip s) := by
  show String.mk (titleAux false (stripList (titleAux false (stripList s.data)))) =
    String.mk (titleAux false (stripList s.data))
  rw [title_strip_idem]

theorem normStr_idem (v : Value) : normStr (normStr v) = normStr v := by
  have h := pyTitle_pyStrip_idem (astypeStr v)
  show Value.str (pyTitle (pyStrip (pyTitle (pyStrip (astypeStr v))))) =
    Value.str (pyTitle (pyStrip (astypeStr v)))
  rw [h]

theorem map_normStr_idem (l : List Value) :
    (l.map normStr).map normStr = l.map normStr := by
  induction l with
  | nil => rfl
  | cons v vs ih =>
    show normStr (normStr v) :: (vs.map normStr).map normStr = normStr v :: vs.map normStr
    rw [normStr_idem, ih]

/-! ## C8 groundwork: idempotence of the numeric coercion and reconciliation -/

theorem toNumeric_optToVal (o : Option Rat) : toNumeric (optToVal o) = o := by
  cases o <;> rfl

theorem map_coerce_idem (l : List Value) :
    (l.map (fun v => optToVal (toNumeric v))).map (fun v => optToVal (toNumeric v)) =
      l.map (fun v => optToVal (toNumeric v)) := by
  induction l with
  | nil => rfl
  | cons v vs ih =>
    show optToVal (toNumeric (optToVal (toNumeric v))) ::
        ((vs.map (fun x => optToVal (toNumeric x))).map (fun x => optToVal (toNumeric x))) =
      optToVal (toNumeric v) :: vs.map (fun x => optToVal (toNumeric x))
    rw [toNumeric_optToVal, ih]

theorem map_toNumeric_coerce (l : List Value) :
    (l.map (fun v => optToVal (toNumeric v))).map toNumeric = l.map toNumeric := by
  induction l with
  | nil => rfl
  | cons v vs ih =>
    show toNumeric (optToVal (toNumeric v)) ::
        (vs.map (fun x => optToVal (toNumeric x))).map toNumeric =
      toNumeric v :: vs.map toNumeric
    rw [toNumeric_optToVal, ih]

theorem tolerance_eq : (mkRat 1 100 : Rat) = 1 / 100 := by
  rw [Rat.mkRat_eq_div]
  norm_num

theorem fareIncorrect_self (s : Rat) : fareIncorrect (some s) (some s) = false := by
  unfold fareIncorrect
  rw [decide_eq_false_iff_not, qabs_eq, qsub_eq, tolerance_eq]
  simp only [sub_self, abs_zero]
  norm_num

theorem isna_eq_false_of_toNumeric_isSome (v : Value) (h : (toNumeric v).isSome = true) :
    isna v = false := by
  cases v with
  | null => simp [toNumeric] at h
  | num q => rfl
  | str s => rfl
  | boolV b => rfl
  | dateV m d => rfl

theorem totalFareCell_incorrect (b : Option Rat) (v : Value)
    (h : fareIncorrect b (toNumeric v) = true) : totalFareCell b v = optToVal b := by
  simp [totalFareCell, h, ite_self]

theorem totalFareCell_ok (b : Option Rat) (v : Value)
    (hI : fareIncorrect b (toNumeric v) = false) (hna : isna v = false) :
    totalFareCell b v = v := by
  simp [totalFareCell, hI, hna]

theorem totalFareCell_null (b : Option Rat) : totalFareCell b Value.null = optToVal b := by
  cases b <;> simp [totalFareCell, fareIncorrect, toNumeric, isna]

theorem totalFareCell_second (b : Option Rat) (v : Value)
    (h : v = Value.null ∨ (toNumeric v).isSome = true) :
    optToVal (toNumeric (totalFareCell b (optToVal (toNumeric (totalFareCell b v))))) =
      optToVal (toNumeric (totalFareCell b v)) := by
  rcases h with h | h
  · subst h
    rw [totalFareCell_null]
    cases b with
    | none => rfl
    | some s =>
      show optToVal (toNumeric (totalFareCell (some s) (Value.num s))) = Value.num s
      rw [totalFareCell_ok (some s) (Value.num s) (fareIncorrect_self s) rfl]
      rfl
  · obtain ⟨tq, htq⟩ := Option.isSome_iff_exists.mp h
    have hna : isna v = false := isna_eq_false_of_toNumeric_isSome v h
    cases b with
    | none =>
      have hI : fareIncorrect none (toNumeric v) = false := rfl
      rw [totalFareCell_ok none v hI hna, htq]
      show optToVal (toNumeric (totalFareCell none (Value.num tq))) = Value.num tq
      rw [totalFareCell_ok none (Value.num tq) rfl rfl]
      rfl
    | some s =>
      by_cases hI : fareIncorrect (some s) (toNumeric v) = true
      · rw [totalFareCell_incorrect (some s) v hI]
        show optToVal (toNumeric (totalFareCell (some s) (Value.num s))) = Value.num s
        rw [totalFareCell_ok (some s) (Value.num s) (fareIncorrect_self s) rfl]
        rfl
      · have hI2 : fareIncorrect (some s) (toNumeric v) = false := by simpa using hI
        rw [totalFareCell_ok (some s) v hI2 hna, htq]
        show optToVal (toNumeric (totalFareCell (some s) (Value.num tq))) = Value.num tq
        have hI3 : fareIncorrect (some s) (toNumeric (Value.num tq)) = false := by
          rw [htq] at hI2
          exact hI2
        rw [totalFareCell_ok (some s) (Value.num tq) hI3 rfl]
        rfl

theorem zipWith_totalFare_second (bts : List (Option Rat)) (vs : List Value)
    (h : ∀ v ∈ vs, v = Value.null ∨ (toNumeric v).isSome = true) :
    (List.zipWith totalFareCell bts
        ((List.zipWith totalFareCell bts vs).map (fun v => optToVal (toNumeric v)))).map
        (fun v => optToVal (toNumeric v)) =
      (List.zipWith totalFareCell bts vs).map (fun v => optToVal (toNumeric v)) := by
  induction bts generalizing vs with
  | nil => rfl
  | cons b bs ih =>
    cases vs with
    | nil => rfl
    | cons v ws =>
      have hv := h v (List.mem_cons_self v ws)
      have hws : ∀ x ∈ ws, x = Value.null ∨ (toNumeric x).isSome = true := by
        intro x hx
        exact h x (List.mem_cons_of_mem v hx)
      show optToVal (toNumeric (totalFareCell b (optToVal (toNumeric (totalFareCell b v))))) ::
          (List.zipWith totalFareCell bs
            ((List.zipWith totalFareCell bs ws).map (fun x => optToVal (toNumeric x)))).map
            (fun x => optToVal (toNumeric x)) =
        optToVal (toNumeric (totalFareCell b v)) ::
          (List.zipWith totalFareCell bs ws).map (fun x => optToVal (toNumeric x))
      rw [totalFareCell_second b v hv, ih ws hws]

/-! ## C8 groundwork: column names, restriction and presence -/

theorem mem_colNames_iff (ds : Dataset) (c : String) :
    c ∈ ds.colNames ↔ ds.hasCol c = true := by
  unfold Dataset.colNames Dataset.hasCol Dataset.getCol
  constructor
  · intro hc
    obtain ⟨p, hp, hfst⟩ := List.mem_map.mp hc
    have hex : ∃ x ∈ ds.cols, (fun q => q.1 == c) x := ⟨p, hp, by simp [hfst]⟩
    have h2 := List.find?_isSome.mpr hex
    cases hf : ds.cols.find? (fun q => q.1 == c) with
    | none => rw [hf] at h2; simp at h2
    | some q => rfl
  · intro hc
    cases hf : ds.cols.find? (fun q => q.1 == c) with
    | none => rw [hf] at hc; simp at hc
    | some q =>
      have hq := List.find?_some hf
      have hmem := List.mem_of_find?_eq_some hf
      have hq1 : q.1 = c := by simpa using hq
      exact List.mem_map.mpr ⟨q, hmem, hq1⟩

theorem getCol_mk_cons (p : String × List Value) (ps : List (String × List Value)) (c : String) :
    (Dataset.mk (p :: ps)).getCol c =
      if (p.1 == c) = true then some p.2 else (Dataset.mk ps).getCol c := by
  show Option.map Prod.snd ((p :: ps).find? (fun q => q.1 == c)) =
    if (p.1 == c) = true then some p.2
    else Option.map Prod.snd (ps.find? (fun q => q.1 == c))
  rw [List.find?_cons]
  by_cases h : (p.1 == c) = true
  · rw [h]
    rfl
  · have hb : (p.1 == c) = false := by simpa using h
    rw [hb]
    rfl

theorem getCol_restrictCols (ds : Dataset) (names : List String) (c : String) :
    (ds.restrictCols names).getCol c = if c ∈ names then ds.getCol c else none := by
  induction names with
  | nil => rfl
  | cons n rest ih =>
    show (Dataset.mk ((n :: rest).filterMap
        (fun x => (ds.getCol x).map (fun vs => (x, vs))))).getCol c = _
    rw [List.filterMap_cons]
    cases hg : ds.getCol n with
    | none =>
      show (ds.restrictCols rest).getCol c = _
      rw [ih]
      by_cases hm : c ∈ rest
      · rw [if_pos hm, if_pos (List.mem_cons_of_mem n hm)]
      · rw [if_neg hm]
        by_cases hcn : c = n
        · subst hcn
          rw [if_pos (List.mem_cons_self c rest), hg]
        · rw [if_neg (by
            intro hmem
            rcases List.mem_cons.mp hmem with h | h
            · exact hcn h
            · exact hm h)]
    | some vs =>
      show (Dataset.mk ((n, vs) :: rest.filterMap
          (fun x => (ds.getCol x).map (fun w => (x, w))))).getCol c = _
      rw [getCol_mk_cons]
      by_cases hcn : n = c
      · rw [if_pos (by simpa using hcn)]
        subst hcn
        rw [if_pos (List.mem_cons_self n rest), hg]
      · rw [if_neg (by simpa using hcn)]
        show (ds.restrictCols rest).getCol c = _
        rw [ih]
        by_cases hm : c ∈ rest
        · rw [if_pos hm, if_pos (List.mem_cons_of_mem n hm)]
        · rw [if_neg hm, if_neg (by
            intro hmem
            rcases List.mem_cons.mp hmem with h | h
            · exact hcn h.symm
            · exact hm h)]

theorem colNames_restrictCols (E : Dataset) (names : List String) :
    (E.restrictCols names).colNames = names.filter (fun c => E.hasCol c) := by
  induction names with
  | nil => rfl
  | cons n rest ih =>
    show ((n :: rest).filterMap
        (fun x => (E.getCol x).map (fun vs => (x, vs)))).map Prod.fst = _
    rw [List.filterMap_cons, List.filter_cons]
    cases hg : E.getCol n with
    | none =>
      have hh : E.hasCol n = false := by unfold Dataset.hasCol; rw [hg]; rfl
      rw [if_neg (show ¬ ((fun c => E.hasCol c) n = true) from by
        rw [show (fun c => E.hasCol c) n = E.hasCol n from rfl, hh]
        exact Bool.false_ne_true)]
      exact ih
    | some vs =>
      have hh : E.hasCol n = true := by unfold Dataset.hasCol; rw [hg]; rfl
      rw [if_pos (show (fun c => E.hasCol c) n = true from hh)]
      show ((n, vs) :: rest.filterMap
          (fun x => (E.getCol x).map (fun w => (x, w)))).map Prod.fst =
        n :: List.filter (fun c => E.hasCol c) rest
      rw [List.map_cons]
      show n :: (E.restrictCols rest).colNames = n :: List.filter (fun c => E.hasCol c) rest
      rw [ih]

theorem hasCol_mapCols (ds : Dataset) (f : String → List Value → List Value) (c : String) :
    (ds.mapCols f).hasCol c = ds.hasCol c := by
  unfold Dataset.hasCol
  rw [getCol_mapCols]
  cases ds.getCol c <;> rfl

theorem hasCol_setCol_self (ds : Dataset) (c : String) (vs : List Value) :
    (ds.setCol c vs).hasCol c = true := by
  unfold Dataset.hasCol
  rw [getCol_setCol_self]
  rfl

theorem hasCol_setCol_ne (ds : Dataset) (c c2 : String) (vs : List Value)
    (h : (c2 == c) = false) : (ds.setCol c vs).hasCol c2 = ds.hasCol c2 := by
  unfold Dataset.hasCol
  rw [getCol_setCol_ne ds c c2 vs h]

theorem hasCol_setCol_mono (X : Dataset) (c2 c : String) (vs : List Value)
    (h : X.hasCol c2 = true) : (X.setCol c vs).hasCol c2 = true := by
  by_cases hc : (c2 == c) = true
  · have hceq : c2 = c := by simpa using hc
    subst hceq
    exact hasCol_setCol_self _ _ _
  · rw [hasCol_setCol_ne _ _ _ _ (by simpa using hc)]
    exact h

theorem hasCol_ctf_other (ds : Dataset) (c : String) (h : (c == "total_fare") = false) :
    (calculate_total_fare ds).hasCol c = ds.hasCol c := by
  unfold Dataset.hasCol
  rw [getCol_ctf_other ds c h]

theorem hasCol_ctf_mono (ds : Dataset) (c : String) (h : ds.hasCol c = true) :
    (calculate_total_fare ds).hasCol c = true := by
  by_cases hct : (c == "total_fare") = true
  · have hceq : c = "total_fare" := by simpa using hct
    subst hceq
    unfold calculate_total_fare
    by_cases hbx : (ds.hasCol "base_fare" && ds.hasCol "tax_surcharge") = true
    · rw [if_pos hbx, if_pos h, hasCol_mapCols]
      exact h
    · rw [if_neg hbx]
      exact h
  · rw [hasCol_ctf_other ds c (by simpa using hct)]
    exact h

theorem hasCol_deriveFlightDate_other (X : Dataset) (dcol : Option String) (today : Nat × Nat)
    (c : String) (h : (c == "flight_date") = false) :
    (deriveFlightDate X dcol today).hasCol c = X.hasCol c := by
  unfold Dataset.hasCol
  rw [getCol_deriveFlightDate X dcol today c h]

theorem hasCol_deriveFlightDate_fd (X : Dataset) (dcol : Option String) (today : Nat × Nat) :
    (deriveFlightDate X dcol today).hasCol "flight_date" = true := by
  unfold deriveFlightDate
  split
  · rename_i h
    exact h
  · split
    · split
      · split
        · exact hasCol_setCol_self _ _ _
        · exact hasCol_setCol_self _ _ _
      · exact hasCol_setCol_self _ _ _
    · exact hasCol_setCol_self _ _ _

theorem hasCol_deriveFlightDate_mono (X : Dataset) (dcol : Option String) (today : Nat × Nat)
    (c : String) (h : X.hasCol c = true) :
    (deriveFlightDate X dcol today).hasCol c = true := by
  unfold deriveFlightDate
  split
  · exact h
  · split
    · split
      · split
        · exact hasCol_setCol_mono _ _ _ _ h
        · exact hasCol_setCol_mono _ _ _ _ h
      · exact hasCol_setCol_mono _ _ _ _ h
    · exact hasCol_setCol_mono _ _ _ _ h

theorem hasCol_addSeason (X : Dataset) (c : String) (h : (c == "season") = false) :
    (addSeason X).hasCol c = X.hasCol c := by
  unfold Dataset.hasCol
  rw [getCol_addSeason X c h]

theorem hasCol_addSeason_mono (X : Dataset) (c : String) (h : X.hasCol c = true) :
    (addSeason X).hasCol c = true := by
  unfold addSeason
  split
  · exact hasCol_setCol_mono _ _ _ _ h
  · exact hasCol_setCol_mono _ _ _ _ h

theorem hasCol_addIsValid_mono (X : Dataset) (c : String) (h : X.hasCol c = true) :
    (addIsValid X).hasCol c = true := by
  unfold addIsValid
  split
  · exact h
  · exact hasCol_setCol_mono _ _ _ _ h

theorem hasCol_clean_mono (ds : Dataset) (dcol : Option String) (today : Nat × Nat)
    (now : String) (c : String) (h : ds.hasCol c = true) :
    (clean_and_enrich ds dcol today now).hasCol c = true := by
  unfold clean_and_enrich addLoadedTimestamp
  apply hasCol_setCol_mono
  apply hasCol_addIsValid_mono
  apply hasCol_addSeason_mono
  apply hasCol_deriveFlightDate_mono
  unfold coerceNumericCols normalizeStrings
  rw [hasCol_mapCols, hasCol_mapCols]
  exact hasCol_ctf_mono ds c h

/-! ## C8 groundwork: the transformation preserves shape -/

theorem colNames_mapCols (ds : Dataset) (f : String → List Value → List Value) :
    (ds.mapCols f).colNames = ds.colNames := by
  unfold Dataset.colNames Dataset.mapCols
  induction ds.cols with
  | nil => rfl
  | cons p ps ih =>
    simp only [List.map_cons]
    rw [ih]

theorem WF_mapCols (ds : Dataset) (f : String → List Value → List Value) (hwf : ds.WF)
    (hf : ∀ p ∈ ds.cols, (f p.1 p.2).length = p.2.length) :
    (ds.mapCols f).WF ∧ (ds.mapCols f).nRows = ds.nRows := by
  have hn : (ds.mapCols f).nRows = ds.nRows := by
    unfold Dataset.nRows Dataset.mapCols
    cases hc : ds.cols with
    | nil => rfl
    | cons p ps =>
      simp only [List.map_cons]
      exact hf p (by rw [hc]; exact List.mem_cons_self p ps)
  refine ⟨⟨?_, ?_⟩, hn⟩
  · intro q hq
    rw [hn]
    unfold Dataset.mapCols at hq
    obtain ⟨p, hp, hpq⟩ := List.mem_map.mp hq
    rw [← hpq]
    show (f p.1 p.2).length = ds.nRows
    rw [hf p hp]
    exact hwf.1 p hp
  · rw [colNames_mapCols]
    exact hwf.2

theorem WF_addCol (ds : Dataset) (c : String) (vs : List Value) (hwf : ds.WF)
    (hc : ds.hasCol c = false) (hlen : vs.length = ds.nRows) :
    (ds.addCol c vs).WF ∧ (ds.addCol c vs).nRows = ds.nRows := by
  have hn : (ds.addCol c vs).nRows = ds.nRows := by
    cases hcs : ds.cols with
    | nil =>
      have h0 : ds.nRows = 0 := by unfold Dataset.nRows; rw [hcs]
      have h1 : (ds.addCol c vs).nRows = vs.length := by
        unfold Dataset.nRows Dataset.addCol
        rw [hcs]
        rfl
      rw [h1, hlen]
    | cons p ps =>
      unfold Dataset.nRows Dataset.addCol
      rw [hcs]
      rfl
  refine ⟨⟨?_, ?_⟩, hn⟩
  · intro q hq
    rw [hn]
    unfold Dataset.addCol at hq
    rw [List.mem_append] at hq
    rcases hq with hq | hq
    · exact hwf.1 q hq
    · simp only [List.mem_singleton] at hq
      rw [hq]
      exact hlen
  · have hcn : (ds.addCol c vs).colNames = ds.colNames ++ [c] := by
      unfold Dataset.colNames Dataset.addCol
      rw [List.map_append]
      rfl
    rw [hcn, List.nodup_append]
    refine ⟨hwf.2, List.nodup_singleton c, ?_⟩
    intro a ha hb
    simp only [List.mem_singleton] at hb
    rw [hb] at ha
    rw [mem_colNames_iff] at ha
    rw [ha] at hc
    exact Bool.noConfusion hc

theorem WF_setCol (ds : Dataset) (c : String) (vs : List Value) (hwf : ds.WF)
    (hlen : vs.length = ds.nRows) :
    (ds.setCol c vs).WF ∧ (ds.setCol c vs).nRows = ds.nRows := by
  unfold Dataset.setCol
  by_cases h : ds.hasCol c = true
  · rw [if_pos h]
    apply WF_mapCols ds _ hwf
    intro p hp
    by_cases hpc : (p.1 == c) = true
    · rw [if_pos hpc, hlen]
      exact (hwf.1 p hp).symm
    · rw [if_neg hpc]
  · have h2 : ds.hasCol c = false := by simpa using h
    rw [if_neg (by rw [h2]; exact Bool.false_ne_true)]
    exact WF_addCol ds c vs hwf h2 hlen

theorem WF_ctf (ds : Dataset) (hwf : ds.WF) :
    (calculate_total_fare ds).WF ∧ (calculate_total_fare ds).nRows = ds.nRows := by
  unfold calculate_total_fare
  by_cases hbx : (ds.hasCol "base_fare" && ds.hasCol "tax_surcharge") = true
  · rw [if_pos hbx]
    have hb : ds.hasCol "base_fare" = true := (Bool.and_eq_true _ _ |>.mp hbx).1
    have hx : ds.hasCol "tax_surcharge" = true := (Bool.and_eq_true _ _ |>.mp hbx).2
    have hblen := length_getColD hwf hb
    have hxlen := length_getColD hwf hx
    have hbt : (List.zipWith addOpt ((ds.getColD "base_fare").map toNumeric)
        ((ds.getColD "tax_surcharge").map toNumeric)).length = ds.nRows := by
      rw [List.length_zipWith, List.length_map, List.length_map, hblen, hxlen]
      omega
    by_cases ht : ds.hasCol "total_fare" = true
    · rw [if_pos ht]
      apply WF_mapCols ds _ hwf
      intro p hp
      by_cases hpc : (p.1 == "total_fare") = true
      · rw [if_pos hpc, List.length_zipWith, hbt, hwf.1 p hp]
        omega
      · rw [if_neg hpc]
    · have ht2 : ds.hasCol "total_fare" = false := by simpa using ht
      rw [if_neg (by rw [ht2]; exact Bool.false_ne_true)]
      apply WF_addCol ds _ _ hwf ht2
      rw [List.length_map]
      exact hbt
  · rw [if_neg hbx]
    exact ⟨hwf, rfl⟩

theorem WF_norm (ds : Dataset) (hwf : ds.WF) :
    (normalizeStrings ds).WF ∧ (normalizeStrings ds).nRows = ds.nRows := by
  unfold normalizeStrings
  apply WF_mapCols ds _ hwf
  intro p hp
  by_cases h : stringCols.contains p.1 = true
  · rw [if_pos h, List.length_map]
  · rw [if_neg h]

theorem WF_coerce (ds : Dataset) (hwf : ds.WF) :
    (coerceNumericCols ds).WF ∧ (coerceNumericCols ds).nRows = ds.nRows := by
  unfold coerceNumericCols
  apply WF_mapCols ds _ hwf
  intro p hp
  by_cases h : fareCols.contains p.1 = true
  · rw [if_pos h, List.length_map]
  · rw [if_neg h]

theorem length_mapM_toDateCell (l : List Value) :
    ∀ out, l.mapM toDateCell = Except.ok out → out.length = l.length := by
  induction l with
  | nil =>
    intro out h
    rw [List.mapM_nil] at h
    have h4 : (Except.ok [] : Except Unit (List (Option (Nat × Nat)))) = Except.ok out := h
    injection h4 with h5
    rw [← h5]
    rfl
  | cons v vs ih =>
    intro out h
    rw [List.mapM_cons] at h
    cases hv : toDateCell v with
    | error e =>
      rw [hv] at h
      have h2 : (Except.error e : Except Unit (List (Option (Nat × Nat)))) = Except.ok out := h
      exact Except.noConfusion h2
    | ok d =>
      rw [hv] at h
      cases hrest : vs.mapM toDateCell with
      | error e =>
        rw [hrest] at h
        have h2 : (Except.error e : Except Unit (List (Option (Nat × Nat)))) = Except.ok out := h
        exact Except.noConfusion h2
      | ok ds2 =>
        rw [hrest] at h
        have h2 : (Except.ok (d :: ds2) : Except Unit (List (Option (Nat × Nat)))) =
            Except.ok out := h
        injection h2 with h3
        rw [← h3]
        show ds2.length + 1 = vs.length + 1
        rw [ih ds2 hrest]

theorem WF_derive (ds : Dataset) (dcol : Option String) (today : Nat × Nat) (hwf : ds.WF) :
    (deriveFlightDate ds dcol today).WF ∧ (deriveFlightDate ds dcol today).nRows = ds.nRows := by
  unfold deriveFlightDate
  by_cases hfd : ds.hasCol "flight_date" = true
  · rw [if_pos hfd]
    exact ⟨hwf, rfl⟩
  · rw [if_neg hfd]
    cases dcol with
    | none =>
      apply WF_setCol ds _ _ hwf
      exact List.length_replicate _ _
    | some c =>
      dsimp only
      by_cases hc : ds.hasCol c = true
      · rw [if_pos hc]
        cases hm : (ds.getColD c).mapM toDateCell with
        | ok dates =>
          dsimp only
          apply WF_setCol ds _ _ hwf
          rw [List.length_map, length_mapM_toDateCell _ _ hm]
          exact length_getColD hwf hc
        | error e =>
          apply WF_setCol ds _ _ hwf
          exact List.length_replicate _ _
      · rw [if_neg hc]
        apply WF_setCol ds _ _ hwf
        exact List.length_replicate _ _

theorem WF_addSeason (ds : Dataset) (hwf : ds.WF) :
    (addSeason ds).WF ∧ (addSeason ds).nRows = ds.nRows := by
  unfold addSeason
  split
  · rename_i h
    apply WF_setCol ds _ _ hwf
    rw [List.length_map]
    exact length_getColD hwf h
  · apply WF_setCol ds _ _ hwf
    exact List.length_replicate _ _

theorem WF_addIsValid (ds : Dataset) (hwf : ds.WF) :
    (addIsValid ds).WF ∧ (addIsValid ds).nRows = ds.nRows := by
  unfold addIsValid
  split
  · exact ⟨hwf, rfl⟩
  · apply WF_setCol ds _ _ hwf
    exact List.length_replicate _ _

theorem WF_addLoadedTimestamp (ds : Dataset) (now : String) (hwf : ds.WF) :
    (addLoadedTimestamp ds now).WF ∧ (addLoadedTimestamp ds now).nRows = ds.nRows := by
  unfold addLoadedTimestamp
  apply WF_setCol ds _ _ hwf
  exact List.length_replicate _ _

theorem WF_clean (ds : Dataset) (dcol : Option String) (today : Nat × Nat) (now : String)
    (hwf : ds.WF) :
    (clean_and_enrich ds dcol today now).WF ∧
      (clean_and_enrich ds dcol today now).nRows = ds.nRows := by
  unfold clean_and_enrich
  obtain ⟨w1, n1⟩ := WF_ctf ds hwf
  obtain ⟨w2, n2⟩ := WF_norm _ w1
  obtain ⟨w3, n3⟩ := WF_coerce _ w2
  obtain ⟨w4, n4⟩ := WF_derive _ dcol today w3
  obtain ⟨w5, n5⟩ := WF_addSeason _ w4
  obtain ⟨w6, n6⟩ := WF_addIsValid _ w5
  obtain ⟨w7, n7⟩ := WF_addLoadedTimestamp _ now w6
  exact ⟨w7, by rw [n7, n6, n5, n4, n3, n2, n1]⟩

theorem length_getCol_eq (ds : Dataset) (hwf : ds.WF) (c : String) (vs : List Value)
    (h : ds.getCol c = some vs) : vs.length = ds.nRows := by
  have hh : ds.hasCol c = true := by unfold Dataset.hasCol; rw [h]; rfl
  have h2 := length_getColD hwf hh
  unfold Dataset.getColD at h2
  rw [h] at h2
  exact h2

theorem WF_restrict (E ds : Dataset) (hE : E.WF) (hwf : ds.WF)
    (hn : E.nRows = ds.nRows)
    (hpres : ∀ c, ds.hasCol c = true → E.hasCol c = true) :
    (E.restrictCols ds.colNames).WF ∧ (E.restrictCols ds.colNames).nRows = ds.nRows := by
  have hlen : ∀ q ∈ (E.restrictCols ds.colNames).cols, q.2.length = ds.nRows := by
    intro q hq
    unfold Dataset.restrictCols at hq
    obtain ⟨c, hc, hcq⟩ := List.mem_filterMap.mp hq
    cases hg : E.getCol c with
    | none =>
      rw [hg] at hcq
      exact Option.noConfusion hcq
    | some vs =>
      rw [hg] at hcq
      have hq2 : (c, vs) = q := by simpa using hcq
      rw [← hq2]
      show vs.length = ds.nRows
      rw [← hn]
      exact length_getCol_eq E hE c vs hg
  have hnr : (E.restrictCols ds.colNames).nRows = ds.nRows := by
    cases hcs : ds.cols with
    | nil =>
      have h1 : ds.colNames = [] := by unfold Dataset.colNames; rw [hcs]; rfl
      have h2 : ds.nRows = 0 := by unfold Dataset.nRows; rw [hcs]
      have h3 : (E.restrictCols ds.colNames).nRows = 0 := by
        unfold Dataset.restrictCols Dataset.nRows
        rw [h1]
        rfl
      rw [h3, h2]
    | cons p ps =>
      have h1 : ds.colNames = p.1 :: ps.map Prod.fst := by
        unfold Dataset.colNames
        rw [hcs]
        rfl
      have hp1 : ds.hasCol p.1 = true := by
        rw [← mem_colNames_iff, h1]
        exact List.mem_cons_self _ _
      have hpE := hpres p.1 hp1
      obtain ⟨vs, hvs⟩ := Option.isSome_iff_exists.mp hpE
      have h2 : (E.restrictCols ds.colNames).cols =
          (p.1, vs) :: (ps.map Prod.fst).filterMap
            (fun c => (E.getCol c).map (fun w => (c, w))) := by
        unfold Dataset.restrictCols
        rw [h1, List.filterMap_cons, hvs]
        rfl
      have h3 : (E.restrictCols ds.colNames).nRows = vs.length := by
        unfold Dataset.nRows
        rw [h2]
      rw [h3, length_getCol_eq E hE p.1 vs hvs, hn]
  refine ⟨⟨?_, ?_⟩, hnr⟩
  · intro q hq
    rw [hnr]
    exact hlen q hq
  · rw [colNames_restrictCols]
    exact List.Nodup.filter _ hwf.2

/-! ## C8 groundwork: closed forms for the columns of one pass -/

theorem hasCol_eq_true_of_getCol (ds : Dataset) (x : String) (vs : List Value)
    (h : ds.getCol x = some vs) : ds.hasCol x = true := by
  unfold Dataset.hasCol
  rw [h]
  rfl

theorem getCol_eq_none_of_hasCol (ds : Dataset) (x : String) (h : ds.hasCol x = false) :
    ds.getCol x = none := by
  unfold Dataset.hasCol at h
  cases hg : ds.getCol x with
  | none => rfl
  | some vs => rw [hg] at h; exact Bool.noConfusion h

theorem ctf_id_of_nobx (X : Dataset)
    (hbx : (X.hasCol "base_fare" && X.hasCol "tax_surcharge") = false) :
    calculate_total_fare X = X := by
  unfold calculate_total_fare
  rw [if_neg (by rw [hbx]; exact Bool.false_ne_true)]

theorem stringCols_three (c : String) (h : stringCols.contains c = true) :
    c = "airline" ∨ c = "source" ∨ c = "destination" := by
  have hmem : c ∈ stringCols := by simpa using h
  simpa [stringCols] using hmem

theorem fareCols_three (c : String) (h : fareCols.contains c = true) :
    c = "base_fare" ∨ c = "tax_surcharge" ∨ c = "total_fare" := by
  have hmem : c ∈ fareCols := by simpa using h
  simpa [fareCols] using hmem

theorem getCol_CN_string (X : Dataset) (c : String) (hs : stringCols.contains c = true) :
    (coerceNumericCols (normalizeStrings X)).getCol c = (X.getCol c).map (List.map normStr) := by
  have hf : fareCols.contains c = false := by
    rcases stringCols_three c hs with h | h | h <;> subst h <;> decide
  rw [getCol_coerce_nonfare _ _ hf, getCol_normalize_string _ _ hs]

theorem getCol_CN_fare (X : Dataset) (c : String) (hfc : fareCols.contains c = true) :
    (coerceNumericCols (normalizeStrings X)).getCol c =
      (X.getCol c).map (List.map (fun v => optToVal (toNumeric v))) := by
  have hs : stringCols.contains c = false := by
    rcases fareCols_three c hfc with h | h | h <;> subst h <;> decide
  rw [getCol_coerce_fare _ _ hfc, getCol_normalize_nonstring _ _ hs]

theorem getCol_CN_other (X : Dataset) (c : String) (hs : stringCols.contains c = false)
    (hf : fareCols.contains c = false) :
    (coerceNumericCols (normalizeStrings X)).getCol c = X.getCol c := by
  rw [getCol_coerce_nonfare _ _ hf, getCol_normalize_nonstring _ _ hs]

theorem getCol_F_string (X : Dataset) (c : String) (hs : stringCols.contains c = true) :
    (coerceNumericCols (normalizeStrings (calculate_total_fare X))).getCol c =
      (X.getCol c).map (List.map normStr) := by
  have hct : (c == "total_fare") = false := by
    rcases stringCols_three c hs with h | h | h <;> subst h <;> decide
  rw [getCol_CN_string _ _ hs, getCol_ctf_other _ _ hct]

theorem getCol_F_basetax (X : Dataset) (c : String)
    (hc : c = "base_fare" ∨ c = "tax_surcharge") :
    (coerceNumericCols (normalizeStrings (calculate_total_fare X))).getCol c =
      (X.getCol c).map (List.map (fun v => optToVal (toNumeric v))) := by
  have hfc : fareCols.contains c = true := by rcases hc with h | h <;> subst h <;> decide
  have hct : (c == "total_fare") = false := by rcases hc with h | h <;> subst h <;> decide
  rw [getCol_CN_fare _ _ hfc, getCol_ctf_other _ _ hct]

theorem getCol_F_other (X : Dataset) (c : String) (hs : stringCols.contains c = false)
    (hf : fareCols.contains c = false) (hct : (c == "total_fare") = false) :
    (coerceNumericCols (normalizeStrings (calculate_total_fare X))).getCol c = X.getCol c := by
  rw [getCol_CN_other _ _ hs hf, getCol_ctf_other _ _ hct]

theorem getCol_F_total_present (X : Dataset)
    (hbx : (X.hasCol "base_fare" && X.hasCol "tax_surcharge") = true)
    (ht : X.hasCol "total_fare" = true) :
    (coerceNumericCols (normalizeStrings (calculate_total_fare X))).getCol "total_fare" =
      ((X.getCol "total_fare").map
        (List.zipWith totalFareCell
          (List.zipWith addOpt ((X.getColD "base_fare").map toNumeric)
            ((X.getColD "tax_surcharge").map toNumeric)))).map
        (List.map (fun v => optToVal (toNumeric v))) := by
  rw [getCol_CN_fare _ _ (by decide), getCol_ctf_total X hbx ht]

theorem getCol_F_total_absent (X : Dataset)
    (hbx : (X.hasCol "base_fare" && X.hasCol "tax_surcharge") = true)
    (ht : X.hasCol "total_fare" = false) :
    (coerceNumericCols (normalizeStrings (calculate_total_fare X))).getCol "total_fare" =
      some (((List.zipWith addOpt ((X.getColD "base_fare").map toNumeric)
          ((X.getColD "tax_surcharge").map toNumeric)).map optToVal).map
        (fun v => optToVal (toNumeric v))) := by
  rw [getCol_CN_fare _ _ (by decide), getCol_ctf_total_absent X hbx ht]
  rfl

theorem getCol_clean_other (X : Dataset) (dcol : Option String) (today : Nat × Nat)
    (now : String) (c : String)
    (h1 : (c == "flight_date") = false) (h2 : (c == "season") = false)
    (h3 : (c == "is_valid") = false) (h4 : (c == "loaded_timestamp") = false) :
    (clean_and_enrich X dcol today now).getCol c =
      (coerceNumericCols (normalizeStrings (calculate_total_fare X))).getCol c := by
  unfold clean_and_enrich
  rw [getCol_addLoadedTimestamp _ _ _ h4, getCol_addIsValid _ _ h3, getCol_addSeason _ _ h2,
    getCol_deriveFlightDate _ _ _ _ h1]

theorem getCol_addIsValid_any (X : Dataset) (c : String) (h : X.hasCol "is_valid" = true) :
    (addIsValid X).getCol c = X.getCol c := by
  unfold addIsValid
  rw [if_pos h]

theorem getCol_clean_fd_present (X : Dataset) (dcol : Option String) (today : Nat × Nat)
    (now : String)
    (h : (coerceNumericCols (normalizeStrings (calculate_total_fare X))).hasCol
      "flight_date" = true) :
    (clean_and_enrich X dcol today now).getCol "flight_date" =
      (coerceNumericCols (normalizeStrings (calculate_total_fare X))).getCol "flight_date" := by
  unfold clean_and_enrich
  rw [getCol_addLoadedTimestamp _ _ _ (by decide), getCol_addIsValid _ _ (by decide),
    getCol_addSeason _ _ (by decide)]
  unfold deriveFlightDate
  rw [if_pos h]

theorem getCol_clean_iv_present (X : Dataset) (dcol : Option String) (today : Nat × Nat)
    (now : String)
    (h : (coerceNumericCols (normalizeStrings (calculate_total_fare X))).hasCol
      "is_valid" = true) :
    (clean_and_enrich X dcol today now).getCol "is_valid" =
      (coerceNumericCols (normalizeStrings (calculate_total_fare X))).getCol "is_valid" := by
  unfold clean_and_enrich
  rw [getCol_addLoadedTimestamp _ _ _ (by decide)]
  rw [getCol_addIsValid_any _ _ (by
    apply hasCol_addSeason_mono
    apply hasCol_deriveFlightDate_mono
    exact h)]
  rw [getCol_addSeason _ _ (by decide), getCol_deriveFlightDate _ _ _ _ (by decide)]

theorem hasCol_F_other (X : Dataset) (c : String) (hct : (c == "total_fare") = false) :
    (coerceNumericCols (normalizeStrings (calculate_total_fare X))).hasCol c = X.hasCol c := by
  unfold coerceNumericCols normalizeStrings
  rw [hasCol_mapCols, hasCol_mapCols, hasCol_ctf_other X c hct]

theorem restrict_collapse (ds E : Dataset) (x : String) (g : List Value → List Value)
    (hE : E.getCol x = (ds.getCol x).map g) :
    (E.restrictCols ds.colNames).getCol x = (ds.getCol x).map g := by
  rw [getCol_restrictCols]
  by_cases hm : x ∈ ds.colNames
  · rw [if_pos hm, hE]
  · rw [if_neg hm]
    cases hg : ds.getCol x with
    | none => rfl
    | some vs =>
      exact absurd ((mem_colNames_iff ds x).mpr (hasCol_eq_true_of_getCol ds x vs hg)) hm

theorem restrict_collapse_id (ds E : Dataset) (x : String) (hE : E.getCol x = ds.getCol x) :
    (E.restrictCols ds.colNames).getCol x = ds.getCol x := by
  rw [getCol_restrictCols]
  by_cases hm : x ∈ ds.colNames
  · rw [if_pos hm, hE]
  · rw [if_neg hm]
    cases hg : ds.getCol x with
    | none => rfl
    | some vs =>
      exact absurd ((mem_colNames_iff ds x).mpr (hasCol_eq_true_of_getCol ds x vs hg)) hm

/-! ## C8 groundwork: the second pass recomputes the same columns -/

theorem second_pass_cols (ds : Dataset) (dcol : Option String) (today : Nat × Nat)
    (now : String) (_hwf : ds.WF)
    (htot : ∀ v ∈ ds.getColD "total_fare", v = Value.null ∨ (toNumeric v).isSome = true)
    (c : String) (hcs : c ≠ "season") (hcl : c ≠ "loaded_timestamp") :
    (coerceNumericCols (normalizeStrings (calculate_total_fare
        ((clean_and_enrich ds dcol today now).restrictCols ds.colNames)))).getCol c =
      (coerceNumericCols (normalizeStrings (calculate_total_fare ds))).getCol c := by
  have hEbase : (clean_and_enrich ds dcol today now).getCol "base_fare" =
      (ds.getCol "base_fare").map (List.map (fun v => optToVal (toNumeric v))) := by
    rw [getCol_clean_other ds dcol today now _ (by decide) (by decide) (by decide) (by decide)]
    exact getCol_F_basetax ds _ (Or.inl rfl)
  have hEtax : (clean_and_enrich ds dcol today now).getCol "tax_surcharge" =
      (ds.getCol "tax_surcharge").map (List.map (fun v => optToVal (toNumeric v))) := by
    rw [getCol_clean_other ds dcol today now _ (by decide) (by decide) (by decide) (by decide)]
    exact getCol_F_basetax ds _ (Or.inr rfl)
  have hRbase := restrict_collapse ds _ "base_fare" _ hEbase
  have hRtax := restrict_collapse ds _ "tax_surcharge" _ hEtax
  have hRhb : ((clean_and_enrich ds dcol today now).restrictCols ds.colNames).hasCol
      "base_fare" = ds.hasCol "base_fare" := by
    unfold Dataset.hasCol
    rw [hRbase]
    cases ds.getCol "base_fare" <;> rfl
  have hRhx : ((clean_and_enrich ds dcol today now).restrictCols ds.colNames).hasCol
      "tax_surcharge" = ds.hasCol "tax_surcharge" := by
    unfold Dataset.hasCol
    rw [hRtax]
    cases ds.getCol "tax_surcharge" <;> rfl
  have hbtR : (((clean_and_enrich ds dcol today now).restrictCols
        ds.colNames).getColD "base_fare").map toNumeric =
      (ds.getColD "base_fare").map toNumeric := by
    unfold Dataset.getColD
    rw [hRbase]
    cases hg : ds.getCol "base_fare" with
    | none => rfl
    | some bl =>
      show (bl.map (fun v => optToVal (toNumeric v))).map toNumeric = bl.map toNumeric
      exact map_toNumeric_coerce bl
  have hxtR : (((clean_and_enrich ds dcol today now).restrictCols
        ds.colNames).getColD "tax_surcharge").map toNumeric =
      (ds.getColD "tax_surcharge").map toNumeric := by
    unfold Dataset.getColD
    rw [hRtax]
    cases hg : ds.getCol "tax_surcharge" with
    | none => rfl
    | some xl =>
      show (xl.map (fun v => optToVal (toNumeric v))).map toNumeric = xl.map toNumeric
      exact map_toNumeric_coerce xl
  by_cases hct : c = "total_fare"
  · subst hct
    by_cases hbx : (ds.hasCol "base_fare" && ds.hasCol "tax_surcharge") = true
    · have hRbx : (((clean_and_enrich ds dcol today now).restrictCols ds.colNames).hasCol
          "base_fare" &&
          ((clean_and_enrich ds dcol today now).restrictCols ds.colNames).hasCol
            "tax_surcharge") = true := by
        rw [hRhb, hRhx]
        exact hbx
      by_cases ht : ds.hasCol "total_fare" = true
      · obtain ⟨totL, htotL⟩ := Option.isSome_iff_exists.mp ht
        have htotD : ds.getColD "total_fare" = totL := by
          unfold Dataset.getColD
          rw [htotL]
          rfl
        have hEtot : (clean_and_enrich ds dcol today now).getCol "total_fare" =
            some ((List.zipWith totalFareCell
              (List.zipWith addOpt ((ds.getColD "base_fare").map toNumeric)
                ((ds.getColD "tax_surcharge").map toNumeric)) totL).map
              (fun v => optToVal (toNumeric v))) := by
          rw [getCol_clean_other ds dcol today now _ (by decide) (by decide) (by decide)
              (by decide),
            getCol_F_total_present ds hbx ht, htotL]
          rfl
        have hRtot : ((clean_and_enrich ds dcol today now).restrictCols ds.colNames).getCol
            "total_fare" =
            some ((List.zipWith totalFareCell
              (List.zipWith addOpt ((ds.getColD "base_fare").map toNumeric)
                ((ds.getColD "tax_surcharge").map toNumeric)) totL).map
              (fun v => optToVal (toNumeric v))) := by
          rw [getCol_restrictCols, if_pos ((mem_colNames_iff ds _).mpr ht), hEtot]
        have hRht : ((clean_and_enrich ds dcol today now).restrictCols
            ds.colNames).hasCol "total_fare" = true :=
          hasCol_eq_true_of_getCol _ _ _ hRtot
        rw [getCol_F_total_present _ hRbx hRht, getCol_F_total_present ds hbx ht,
          hRtot, htotL, hbtR, hxtR]
        show some ((List.zipWith totalFareCell
            (List.zipWith addOpt ((ds.getColD "base_fare").map toNumeric)
              ((ds.getColD "tax_surcharge").map toNumeric))
            ((List.zipWith totalFareCell
              (List.zipWith addOpt ((ds.getColD "base_fare").map toNumeric)
                ((ds.getColD "tax_surcharge").map toNumeric)) totL).map
              (fun v => optToVal (toNumeric v)))).map (fun v => optToVal (toNumeric v))) =
          some ((List.zipWith totalFareCell
            (List.zipWith addOpt ((ds.getColD "base_fare").map toNumeric)
              ((ds.getColD "tax_surcharge").map toNumeric)) totL).map
            (fun v => optToVal (toNumeric v)))
        refine congrArg some (zipWith_totalFare_second _ totL ?_)
        rw [htotD] at htot
        exact htot
      · have ht2 : ds.hasCol "total_fare" = false := by simpa using ht
        have hRtot : ((clean_and_enrich ds dcol today now).restrictCols ds.colNames).getCol
            "total_fare" = none := by
          rw [getCol_restrictCols, if_neg (by
            intro hm
            rw [mem_colNames_iff] at hm
            rw [ht2] at hm
            exact Bool.noConfusion hm)]
        have hRht : ((clean_and_enrich ds dcol today now).restrictCols
            ds.colNames).hasCol "total_fare" = false := by
          unfold Dataset.hasCol
          rw [hRtot]
          rfl
        rw [getCol_F_total_absent _ hRbx hRht, getCol_F_total_absent ds hbx ht2,
          hbtR, hxtR]
    · have hbx2 : (ds.hasCol "base_fare" && ds.hasCol "tax_surcharge") = false := by
        simpa using hbx
      have hRbx : (((clean_and_enrich ds dcol today now).restrictCols ds.colNames).hasCol
          "base_fare" &&
          ((clean_and_enrich ds dcol today now).restrictCols ds.colNames).hasCol
            "tax_surcharge") = false := by
        rw [hRhb, hRhx]
        exact hbx2
      rw [ctf_id_of_nobx _ hRbx, ctf_id_of_nobx ds hbx2]
      have hEtot : (clean_and_enrich ds dcol today now).getCol "total_fare" =
          (ds.getCol "total_fare").map (List.map (fun v => optToVal (toNumeric v))) := by
        rw [getCol_clean_other ds dcol today now _ (by decide) (by decide) (by decide)
            (by decide),
          getCol_CN_fare _ _ (by decide), ctf_id_of_nobx ds hbx2]
      have hRtot := restrict_collapse ds _ "total_fare" _ hEtot
      rw [getCol_CN_fare _ _ (by decide), getCol_CN_fare ds _ (by decide), hRtot]
      cases hg : ds.getCol "total_fare" with
      | none => rfl
      | some vs =>
        show some ((vs.map (fun v => optToVal (toNumeric v))).map
            (fun v => optToVal (toNumeric v))) =
          some (vs.map (fun v => optToVal (toNumeric v)))
        rw [map_coerce_idem]
  · by_cases hcs2 : stringCols.contains c = true
    · have hEc : (clean_and_enrich ds dcol today now).getCol c =
          (ds.getCol c).map (List.map normStr) := by
        rcases stringCols_three c hcs2 with h | h | h <;> subst h <;>
          rw [getCol_clean_other ds dcol today now _ (by decide) (by decide) (by decide)
              (by decide),
            getCol_F_string ds _ (by decide)]
      have hRc := restrict_collapse ds _ c _ hEc
      rw [getCol_F_string _ c hcs2, getCol_F_string ds c hcs2, hRc]
      cases hg : ds.getCol c with
      | none => rfl
      | some vs =>
        show some ((vs.map normStr).map normStr) = some (vs.map normStr)
        rw [map_normStr_idem]
    · by_cases hcf : fareCols.contains c = true
      · have hbc : c = "base_fare" ∨ c = "tax_surcharge" := by
          rcases fareCols_three c hcf with h | h | h
          · exact Or.inl h
          · exact Or.inr h
          · exact absurd h hct
        have hEc : (clean_and_enrich ds dcol today now).getCol c =
            (ds.getCol c).map (List.map (fun v => optToVal (toNumeric v))) := by
          rcases hbc with h | h <;> subst h <;>
            rw [getCol_clean_other ds dcol today now _ (by decide) (by decide) (by decide)
                (by decide)] <;>
            [exact getCol_F_basetax ds _ (Or.inl rfl); exact getCol_F_basetax ds _ (Or.inr rfl)]
        have hRc := restrict_collapse ds _ c _ hEc
        rw [getCol_F_basetax _ c hbc, getCol_F_basetax ds c hbc, hRc]
        cases hg : ds.getCol c with
        | none => rfl
        | some vs =>
          show some ((vs.map (fun v => optToVal (toNumeric v))).map
              (fun v => optToVal (toNumeric v))) =
            some (vs.map (fun v => optToVal (toNumeric v)))
          rw [map_coerce_idem]
      · have hsF : stringCols.contains c = false := by simpa using hcs2
        have hfF : fareCols.contains c = false := by simpa using hcf
        have hctb : (c == "total_fare") = false := by simpa using hct
        rw [getCol_F_other _ c hsF hfF hctb, getCol_F_other ds c hsF hfF hctb]
        by_cases hfd : c = "flight_date"
        · subst hfd
          by_cases hdsfd : ds.hasCol "flight_date" = true
          · have hF1fd : (coerceNumericCols (normalizeStrings
                (calculate_total_fare ds))).hasCol "flight_date" = true := by
              rw [hasCol_F_other ds _ (by decide)]
              exact hdsfd
            have hEc : (clean_and_enrich ds dcol today now).getCol "flight_date" =
                ds.getCol "flight_date" := by
              rw [getCol_clean_fd_present ds dcol today now hF1fd,
                getCol_F_other ds _ (by decide) (by decide) (by decide)]
            exact restrict_collapse_id ds _ _ hEc
          · have hdsn : ds.getCol "flight_date" = none :=
              getCol_eq_none_of_hasCol ds _ (by simpa using hdsfd)
            rw [hdsn, getCol_restrictCols, if_neg (by
              intro hm
              rw [mem_colNames_iff] at hm
              exact hdsfd hm)]
        · by_cases hiv : c = "is_valid"
          · subst hiv
            by_cases hdsv : ds.hasCol "is_valid" = true
            · have hF1v : (coerceNumericCols (normalizeStrings
                  (calculate_total_fare ds))).hasCol "is_valid" = true := by
                rw [hasCol_F_other ds _ (by decide)]
                exact hdsv
              have hEc : (clean_and_enrich ds dcol today now).getCol "is_valid" =
                  ds.getCol "is_valid" := by
                rw [getCol_clean_iv_present ds dcol today now hF1v,
                  getCol_F_other ds _ (by decide) (by decide) (by decide)]
              exact restrict_collapse_id ds _ _ hEc
            · have hdsn : ds.getCol "is_valid" = none :=
                getCol_eq_none_of_hasCol ds _ (by simpa using hdsv)
              rw [hdsn, getCol_restrictCols, if_neg (by
                intro hm
                rw [mem_colNames_iff] at hm
                exact hdsv hm)]
          · have hEc : (clean_and_enrich ds dcol today now).getCol c = ds.getCol c := by
              rw [getCol_clean_other ds dcol today now c (by simpa using hfd)
                  (by simpa using hcs) (by simpa using hiv) (by simpa using hcl),
                getCol_F_other ds c hsF hfF hctb]
            exact restrict_collapse_id ds _ c hEc

/-! ## C8 groundwork: the derived flight date and season of the two passes -/

theorem getColD_setCol_self (ds : Dataset) (c : String) (vs : List Value) :
    (ds.setCol c vs).getColD c = vs := by
  unfold Dataset.getColD
  rw [getCol_setCol_self]
  rfl

theorem deriveFD_getColD_eq (F1 F2 : Dataset) (dcol : Option String) (today : Nat × Nat)
    (hfd : F2.getCol "flight_date" = F1.getCol "flight_date")
    (hdc : ∀ dc, dcol = some dc → F2.getCol dc = F1.getCol dc)
    (hn : F2.nRows = F1.nRows) :
    (deriveFlightDate F2 dcol today).getColD "flight_date" =
      (deriveFlightDate F1 dcol today).getColD "flight_date" := by
  have hh : F2.hasCol "flight_date" = F1.hasCol "flight_date" := by
    unfold Dataset.hasCol
    rw [hfd]
  unfold deriveFlightDate
  by_cases h1 : F1.hasCol "flight_date" = true
  · rw [if_pos h1, if_pos (by rw [hh]; exact h1)]
    unfold Dataset.getColD
    rw [hfd]
  · have h1f : F1.hasCol "flight_date" = false := by simpa using h1
    rw [if_neg (by rw [hh, h1f]; exact Bool.false_ne_true),
      if_neg (by rw [h1f]; exact Bool.false_ne_true)]
    cases dcol with
    | none =>
      rw [getColD_setCol_self, getColD_setCol_self, hn]
    | some dc =>
      dsimp only
      have hcol := hdc dc rfl
      have hhc : F2.hasCol dc = F1.hasCol dc := by
        unfold Dataset.hasCol
        rw [hcol]
      by_cases h2 : F1.hasCol dc = true
      · rw [if_pos (by rw [hhc]; exact h2), if_pos h2]
        have hD : F2.getColD dc = F1.getColD dc := by
          unfold Dataset.getColD
          rw [hcol]
        rw [hD]
        cases hm : (F1.getColD dc).mapM toDateCell with
        | ok dates =>
          dsimp only
          rw [getColD_setCol_self, getColD_setCol_self]
        | error e =>
          dsimp only
          rw [getColD_setCol_self, getColD_setCol_self, hn]
      · have h2f : F1.hasCol dc = false := by simpa using h2
        rw [if_neg (by rw [hhc, h2f]; exact Bool.false_ne_true),
          if_neg (by rw [h2f]; exact Bool.false_ne_true)]
        rw [getColD_setCol_self, getColD_setCol_self, hn]

theorem getCol_clean_season (X : Dataset) (dcol : Option String) (today : Nat × Nat)
    (now : String) :
    (clean_and_enrich X dcol today now).getCol "season" =
      some (((deriveFlightDate (coerceNumericCols (normalizeStrings
          (calculate_total_fare X))) dcol today).getColD "flight_date").map
        (fun v => Value.str (classify_season v))) := by
  unfold clean_and_enrich
  rw [getCol_addLoadedTimestamp _ _ _ (by decide), getCol_addIsValid _ _ (by decide)]
  unfold addSeason
  rw [if_pos (hasCol_deriveFlightDate_fd _ _ _), getCol_setCol_self]

/-! ## C8: idempotence of the enrichment -/

/-- C8 counterexample: re-running `clean_and_enrich` on the first result
restricted to the input column shape does NOT always reproduce the same
`total_fare` and `season` columns.  (1) On `cexFares`, whose row 1 holds the
non-numeric string `"xyz"` in `total_fare`, the first pass ends with a
missing total (the `NaN` comparison suppresses the overwrite, the string is
not missing at fill time, and the later coercion turns it into `NaN`), while
the second pass fills the now-missing cell with `base + tax = 120`.
(2) On `cexSeasonCol` with `extract_date_col = "season"`, the first pass
derives the flight date from the raw `season` strings (giving `PEAK_EID`)
but then overwrites `season`, so the second pass reads `"PEAK_EID"`, fails
to parse it as a date, and yields `UNKNOWN`.  (3) Likewise for a date-valued
input `loaded_timestamp` column used as `extract_date_col`, which step 7
overwrites with the processing timestamp. -/
theorem C8_not_idempotent_cex :
    ((clean_and_enrich cexFares none (1, 1) "T").cellAt "total_fare" 1 = Value.null) ∧
    ((clean_and_enrich ((clean_and_enrich cexFares none (1, 1) "T").restrictCols
        cexFares.colNames) none (1, 1) "T").cellAt "total_fare" 1 = Value.num 120) ∧
    ((clean_and_enrich cexSeasonCol (some "season") (1, 1) "T").cellAt "season" 0 =
      Value.str "PEAK_EID") ∧
    ((clean_and_enrich ((clean_and_enrich cexSeasonCol (some "season") (1, 1) "T").restrictCols
        cexSeasonCol.colNames) (some "season") (1, 1) "T").cellAt "season" 0 =
      Value.str "UNKNOWN") ∧
    ((clean_and_enrich cexTsCol (some "loaded_timestamp") (1, 1) "T").cellAt "season" 0 =
      Value.str "PEAK_EID") ∧
    ((clean_and_enrich ((clean_and_enrich cexTsCol (some "loaded_timestamp") (1, 1)
        "T").restrictCols cexTsCol.colNames) (some "loaded_timestamp") (1, 1) "T").cellAt
      "season" 0 = Value.str "UNKNOWN") :=
  ⟨by decide, by decide, by decide, by decide, by decide, by decide⟩

/-- C8 (amended): `clean_and_enrich` is idempotent on its enrichment outputs
for every well-formed frame whose `total_fare` cells (when the column is
present) are each missing or numeric, provided `extract_date_col` does not
name the recomputed `season` or `loaded_timestamp` columns: re-running the
transformation on the first result restricted to the input column shape
(with the same processing date) reproduces the same `total_fare`, the same
`season`, and the same normalized `airline`, `source` and `destination`
columns.  Without the total-fare proviso a non-numeric total string breaks
idempotence, and without the column proviso the second pass derives dates
from an overwritten column (`C8_not_idempotent_cex`). -/
theorem C8_idempotence_amended (ds : Dataset) (dcol : Option String) (today : Nat × Nat)
    (now now2 : String) (hwf : ds.WF)
    (htot : ∀ v ∈ ds.getColD "total_fare", v = Value.null ∨ (toNumeric v).isSome = true)
    (hs : dcol ≠ some "season") (hl : dcol ≠ some "loaded_timestamp") :
    ∀ c ∈ ["total_fare", "airline", "source", "destination", "season"],
      (clean_and_enrich ((clean_and_enrich ds dcol today now).restrictCols ds.colNames)
          dcol today now2).getCol c =
        (clean_and_enrich ds dcol today now).getCol c := by
  have hE := WF_clean ds dcol today now hwf
  have hR := WF_restrict (clean_and_enrich ds dcol today now) ds hE.1 hwf hE.2
    (fun x hx => hasCol_clean_mono ds dcol today now x hx)
  have hF1 : (coerceNumericCols (normalizeStrings (calculate_total_fare ds))).nRows =
      ds.nRows := by
    obtain ⟨w1, n1⟩ := WF_ctf ds hwf
    obtain ⟨w2, n2⟩ := WF_norm _ w1
    obtain ⟨w3, n3⟩ := WF_coerce _ w2
    rw [n3, n2, n1]
  have hF2 : (coerceNumericCols (normalizeStrings (calculate_total_fare
      ((clean_and_enrich ds dcol today now).restrictCols ds.colNames)))).nRows =
      ds.nRows := by
    obtain ⟨w1, n1⟩ := WF_ctf _ hR.1
    obtain ⟨w2, n2⟩ := WF_norm _ w1
    obtain ⟨w3, n3⟩ := WF_coerce _ w2
    rw [n3, n2, n1, hR.2]
  have hcolEq : ∀ x, x ≠ "season" → x ≠ "loaded_timestamp" →
      (coerceNumericCols (normalizeStrings (calculate_total_fare
        ((clean_and_enrich ds dcol today now).restrictCols ds.colNames)))).getCol x =
      (coerceNumericCols (normalizeStrings (calculate_total_fare ds))).getCol x :=
    fun x hx1 hx2 => second_pass_cols ds dcol today now hwf htot x hx1 hx2
  intro c hc
  have hc2 : c = "total_fare" ∨ c = "airline" ∨ c = "source" ∨ c = "destination" ∨
      c = "season" := by simpa using hc
  rcases hc2 with rfl | rfl | rfl | rfl | rfl
  · rw [getCol_clean_other _ dcol today now2 _ (by decide) (by decide) (by decide) (by decide),
      getCol_clean_other ds dcol today now _ (by decide) (by decide) (by decide) (by decide)]
    exact hcolEq _ (by decide) (by decide)
  · rw [getCol_clean_other _ dcol today now2 _ (by decide) (by decide) (by decide) (by decide),
      getCol_clean_other ds dcol today now _ (by decide) (by decide) (by decide) (by decide)]
    exact hcolEq _ (by decide) (by decide)
  · rw [getCol_clean_other _ dcol today now2 _ (by decide) (by decide) (by decide) (by decide),
      getCol_clean_other ds dcol today now _ (by decide) (by decide) (by decide) (by decide)]
    exact hcolEq _ (by decide) (by decide)
  · rw [getCol_clean_other _ dcol today now2 _ (by decide) (by decide) (by decide) (by decide),
      getCol_clean_other ds dcol today now _ (by decide) (by decide) (by decide) (by decide)]
    exact hcolEq _ (by decide) (by decide)
  · rw [getCol_clean_season _ dcol today now2, getCol_clean_season ds dcol today now]
    rw [deriveFD_getColD_eq
      (coerceNumericCols (normalizeStrings (calculate_total_fare ds)))
      (coerceNumericCols (normalizeStrings (calculate_total_fare
        ((clean_and_enrich ds dcol today now).restrictCols ds.colNames))))
      dcol today
      (hcolEq "flight_date" (by decide) (by decide))
      (fun dc hdc => hcolEq dc (fun h => hs (h ▸ hdc)) (fun h => hl (h ▸ hdc)))
      (by rw [hF2, hF1])]

/-- Witness for C8 (amended) at a concrete clean frame, extracting the
flight date from `departure_date` in both passes. -/
theorem C8_idempotence_amended_witness :
    (sampleClean.WF ∧
      (∀ v ∈ sampleClean.getColD "total_fare",
        v = Value.null ∨ (toNumeric v).isSome = true) ∧
      (some "departure_date" ≠ some "season") ∧
      (some "departure_date" ≠ some "loaded_timestamp")) ∧
    (∀ c ∈ ["total_fare", "airline", "source", "destination", "season"],
      (clean_and_enrich ((clean_and_enrich sampleClean (some "departure_date") (2, 3)
          "T").restrictCols sampleClean.colNames) (some "departure_date") (2, 3) "U").getCol c =
        (clean_and_enrich sampleClean (some "departure_date") (2, 3) "T").getCol c) :=
  ⟨⟨by decide, by decide, by decide, by decide⟩,
   C8_idempotence_amended sampleClean (some "departure_date") (2, 3) "T" "U"
     (by decide) (by decide) (by decide) (by decide)⟩

end FlightPipeline

